import Mathlib

/-!
Shallow embedding of `src/gantt.py` (NotionGantt): a Streamlit script that
fetches records from a Notion database, normalises them into a task table,
builds a parent→children map, recursively collects descendant due-date
details per top-level task, and lays out a point-and-line timeline chart.

Conventions of the embedding:
* a pandas DataFrame of processed tasks is a `List Task` (row order = list order);
* timestamps are integers (days); `NaT` / missing dates are `none`;
* Python dicts used as maps are association lists built in insertion order,
  with in-place overwrite on duplicate keys (`dictInsert`);
* the recursive collector is embedded with explicit fuel returning `Option`:
  `none` means the recursion did not bottom out within the given fuel, so
  divergence of the Python recursion is `∀ fuel, … = none`;
* Python's stable `sort`/`sorted` is embedded as a stable insertion sort;
* loosely-typed Notion payloads are a JSON-like type `J`, and attribute /
  subscript access that would raise in Python returns `Except.error`.
-/

namespace Gantt

/-- One processed task row, as produced by `process_notion_data`
(columns `id`, `이름`, `종료일`, `상태`, `상위 항목 ID`). -/
structure Task where
  id : String
  name : String
  due_date : Option Int
  status : Option String
  parent_id : Option String
deriving Repr, DecidableEq

/-- One collected descendant record: the dict
`{'date': …, 'name': …, 'status': …}` appended by
`get_descendant_end_details`. -/
structure Detail where
  date : Int
  name : String
  status : Option String
deriving Repr, DecidableEq

/-! ## Fetch loop (`get_notion_database_data`, gantt.py lines 22-51) -/

/-- One page response from the Notion query, with its record payload left
abstract (`α`). -/
structure Page (α : Type) where
  results : List α
  has_more : Bool
  next_cursor : Option String
deriving Repr, DecidableEq

/-- The paginated fetch loop of `get_notion_database_data`: the server's
successive responses are given as a list, each either a page or a raised
exception. Accumulate `results` of each page; on an exception return the
empty list (discarding `all_results`); stop successfully when a page has
`has_more = false`. `none` marks the modelling artefact of the response
list running out while the loop still wants more pages. -/
def get_notion_database_data {α : Type} :
    List (Except String (Page α)) → List α → Option (List α)
  | [], _ => none
  | r :: rest, all_results =>
    match r with
    | Except.error _ => some []
    | Except.ok p =>
      let acc := all_results ++ p.results
      if p.has_more then get_notion_database_data rest acc else some acc

/-! ## Parent→children map (gantt.py lines 155-159) -/

/-- Python dict assignment `m.setdefault(p, []).append(c)`: append `c` to
the list at key `p`, creating the key (in insertion order) if absent. -/
def pcmInsert (m : List (String × List String)) (p c : String) :
    List (String × List String) :=
  match m with
  | [] => [(p, [c])]
  | (q, cs) :: rest =>
    if q = p then (q, cs ++ [c]) :: rest else (q, cs) :: pcmInsert rest p c

/-- `parent_child_map` construction: for each row of `df` whose
`상위 항목 ID` is non-null and occurs among `df['id'].values`, append the
row's id to the parent's child list. -/
def buildParentChildMap (df : List Task) : List (String × List String) :=
  df.foldl
    (fun m t =>
      match t.parent_id with
      | some p => if (df.map (·.id)).contains p then pcmInsert m p t.id else m
      | none => m)
    []

/-! ## Descendant collector (`get_descendant_end_details`, lines 104-132) -/

/-- `df_all_tasks_indexed.loc[[child_id]]` followed by `.iloc[0]`: the first
row whose id matches, or the `KeyError` arm (empty frame) when absent. The
appended detail list is `[…]` when the row exists and its `종료일` is
non-NaT, else `[]`. -/
def detailOf (df : List Task) (child_id : String) : List Detail :=
  match df.find? (fun t => t.id == child_id) with
  | some t =>
    match t.due_date with
    | some d => [⟨d, t.name, t.status⟩]
    | none => []
  | none => []

/-- The recursive collector `get_descendant_end_details(task_id, df, map)`,
with explicit fuel. If `task_id` is not a key of the map, return `[]`.
Otherwise, for each child in order: append the child's own detail (when its
row exists with a non-NaT `종료일`), then extend with the recursive results
for that child. The Python function has no cycle guard, so recursion depth
is bounded only by the fuel; `none` = fuel exhausted (the Python call has
not returned within that recursion depth). -/
def get_descendant_end_details (fuel : Nat) (task_id : String)
    (df : List Task) (pcm : List (String × List String)) :
    Option (List Detail) :=
  match fuel with
  | 0 => none
  | fuel' + 1 =>
    match List.lookup task_id pcm with
    | none => some []
    | some children =>
      children.foldlM
        (fun acc child_id => do
          let rest ← get_descendant_end_details fuel' child_id df pcm
          pure (acc ++ detailOf df child_id ++ rest))
        []

/-- Reference pre-order id traversal: the sequence of child ids visited by
`get_descendant_end_details`, in depth-first pre-order over the children
map (each child listed before its own descendants). -/
def preorderDescendants (fuel : Nat) (task_id : String)
    (pcm : List (String × List String)) : Option (List String) :=
  match fuel with
  | 0 => none
  | fuel' + 1 =>
    match List.lookup task_id pcm with
    | none => some []
    | some children =>
      children.foldlM
        (fun acc child_id => do
          let rest ← preorderDescendants fuel' child_id pcm
          pure (acc ++ [child_id] ++ rest))
        []

/-- Turn a pre-order id sequence into the collected details: one tuple per
visited id that is present in the table with a defined due date. -/
def toDetails (df : List Task) (ids : List String) : List Detail :=
  (ids.map (detailOf df)).flatten

/-! ## Loosely-typed Notion records (`process_notion_data`, lines 54-101) -/

/-- A loosely-typed Python value as delivered in a Notion property bag:
`None`, a string, a list, or a dict with string keys (in insertion
order). -/
inductive J where
  | null
  | str (s : String)
  | arr (xs : List J)
  | obj (fields : List (String × J))
deriving Repr

/-- Python truthiness of a `J` value. -/
def truthy : J → Bool
  | .null => false
  | .str s => !(s == "")
  | .arr xs => !xs.isEmpty
  | .obj fs => !fs.isEmpty

/-- `v.get(k, default)`: dict lookup with a default; on any non-dict
receiver Python raises `AttributeError`. A key present with value `None`
returns `None`, not the default. -/
def pyGet (v : J) (k : String) (dflt : J) : Except String J :=
  match v with
  | .obj fs => Except.ok ((List.lookup k fs).getD dflt)
  | _ => Except.error "AttributeError"

/-- `v[k]` with a string key: dict subscription (`KeyError` when the key
is absent); `TypeError` on lists, strings and `None`. -/
def pySubscript (v : J) (k : String) : Except String J :=
  match v with
  | .obj fs =>
    match List.lookup k fs with
    | some w => Except.ok w
    | none => Except.error "KeyError"
  | _ => Except.error "TypeError"

/-- `v[0]`: first element of a list, first character of a string (as a
1-char string), `KeyError`/`TypeError` otherwise. -/
def pyFirst (v : J) : Except String J :=
  match v with
  | .arr [] => Except.error "IndexError"
  | .arr (x :: _) => Except.ok x
  | .str s =>
    match s.toList with
    | [] => Except.error "IndexError"
    | c :: _ => Except.ok (.str (String.mk [c]))
  | .obj _ => Except.error "KeyError"
  | .null => Except.error "TypeError"

/-- `v == "lit"` against a string literal. -/
def pyEqStr (v : J) (s : String) : Bool :=
  match v with
  | .str t => t == s
  | _ => false

/-- Contiguous-substring test on char lists. -/
def charsWithin (needle : List Char) : List Char → Bool
  | [] => needle.isEmpty
  | c :: t => needle.isPrefixOf (c :: t) || charsWithin needle t

/-- `"k" in v`: key test on dicts, membership on lists, substring test on
strings, `TypeError` on `None`. -/
def pyContains (v : J) (k : String) : Except String Bool :=
  match v with
  | .obj fs => Except.ok ((List.lookup k fs).isSome)
  | .arr xs => Except.ok (xs.any (fun x => pyEqStr x k))
  | .str s => Except.ok (charsWithin k.toList s.toList)
  | .null => Except.error "TypeError"

/-- One raw row appended by `process_notion_data` (before the
`pd.to_datetime` pass): every field holds whatever Python value the
extraction produced. -/
structure PRow where
  id : J
  name : J
  end_date : J
  status : J
  parent_id : J
deriving Repr

/-- `name_prop = properties.get("프로젝트 이름", {}).get("title", [])`;
`project_name = name_prop[0]["plain_text"] if name_prop else "이름 없음"`. -/
def extractName (properties : J) : Except String J :=
  match pyGet properties "프로젝트 이름" (J.obj []) with
  | .error e => .error e
  | .ok outer =>
    match pyGet outer "title" (J.arr []) with
    | .error e => .error e
    | .ok name_prop =>
      if truthy name_prop then
        match pyFirst name_prop with
        | .error e => .error e
        | .ok first => pySubscript first "plain_text"
      else .ok (J.str "이름 없음")

/-- `end_date_obj = properties.get("종료일", {}).get("date")`;
`end_date = end_date_obj["start"] if end_date_obj and "start" in
end_date_obj else None`. -/
def extractDate (properties : J) : Except String J :=
  match pyGet properties "종료일" (J.obj []) with
  | .error e => .error e
  | .ok outer =>
    match pyGet outer "date" J.null with
    | .error e => .error e
    | .ok end_date_obj =>
      if truthy end_date_obj then
        match pyContains end_date_obj "start" with
        | .error e => .error e
        | .ok b => if b then pySubscript end_date_obj "start" else .ok J.null
      else .ok J.null

/-- `status_prop = properties.get("상태", {})`; read
`status_prop.get("status", {}).get("name")` when the type tag is
`"status"`, `status_prop.get("select", {}).get("name")` when it is
`"select"`, else the literal `"미정"`. -/
def extractStatus (properties : J) : Except String J :=
  match pyGet properties "상태" (J.obj []) with
  | .error e => .error e
  | .ok status_prop =>
    match pyGet status_prop "type" J.null with
    | .error e => .error e
    | .ok ty =>
      if pyEqStr ty "status" then
        match pyGet status_prop "status" (J.obj []) with
        | .error e => .error e
        | .ok s => pyGet s "name" J.null
      else if pyEqStr ty "select" then
        match pyGet status_prop "select" (J.obj []) with
        | .error e => .error e
        | .ok s => pyGet s "name" J.null
      else .ok (J.str "미정")

/-- `parent_relation_prop = properties.get("상위 항목", {}).get("relation", [])`;
`parent_id = parent_relation_prop[0]["id"] if parent_relation_prop else
None`. -/
def extractParent (properties : J) : Except String J :=
  match pyGet properties "상위 항목" (J.obj []) with
  | .error e => .error e
  | .ok outer =>
    match pyGet outer "relation" (J.arr []) with
    | .error e => .error e
    | .ok rel =>
      if truthy rel then
        match pyFirst rel with
        | .error e => .error e
        | .ok first => pySubscript first "id"
      else .ok J.null

/-- One iteration of the `process_notion_data` loop: extract the fields in
statement order, skipping the record (`ok none`) when the project name is
`"이름 없음"` (which includes the defaulted absent/empty-title case);
any Python exception propagates as `error`. -/
def processRecord (item : J) : Except String (Option PRow) :=
  match pyGet item "properties" (J.obj []) with
  | .error e => .error e
  | .ok properties =>
    match extractName properties with
    | .error e => .error e
    | .ok project_name =>
      if pyEqStr project_name "이름 없음" then .ok none
      else
        match extractDate properties with
        | .error e => .error e
        | .ok end_date =>
          match extractStatus properties with
          | .error e => .error e
          | .ok status =>
            match extractParent properties with
            | .error e => .error e
            | .ok parent_id =>
              match pySubscript item "id" with
              | .error e => .error e
              | .ok idv =>
                .ok (some ⟨idv, project_name, end_date, status, parent_id⟩)

/-- `process_notion_data` over the whole page list (the DataFrame's rows,
in order). -/
def process_notion_data : List J → Except String (List PRow)
  | [] => .ok []
  | item :: rest =>
    match processRecord item with
    | .error e => .error e
    | .ok none => process_notion_data rest
    | .ok (some r) =>
      match process_notion_data rest with
      | .error e => .error e
      | .ok rs => .ok (r :: rs)

/-- `pd.to_datetime(…, errors='coerce')` on one `종료일` cell, the date
parser left abstract: a non-string cell or an unparsable string coerces to
NaT (`none`), never to a default date. -/
def coerceDate (parse : String → Option Int) : J → Option Int
  | .str s => parse s
  | _ => none

/-! ### Well-shapedness: a sufficient condition for `processRecord`
not to raise. -/

/-- Shape of a present `프로젝트 이름` value: a dict whose `title`, when
present, is a list that is empty or starts with a dict carrying
`plain_text`. -/
def titleOk (v : J) : Bool :=
  match v with
  | .obj fs =>
    match List.lookup "title" fs with
    | none => true
    | some (.arr []) => true
    | some (.arr (x :: _)) =>
      match x with
      | .obj gs => (List.lookup "plain_text" gs).isSome
      | _ => false
    | some _ => false
  | _ => false

/-- Shape of a present `종료일` value: a dict whose `date`, when present,
is `None` or a dict. -/
def dateOk (v : J) : Bool :=
  match v with
  | .obj fs =>
    match List.lookup "date" fs with
    | none => true
    | some .null => true
    | some (.obj _) => true
    | some _ => false
  | _ => false

/-- The `status` / `select` payload, when present, must be a dict. -/
def statusPayloadOk (fs : List (String × J)) (k : String) : Bool :=
  match List.lookup k fs with
  | none => true
  | some (.obj _) => true
  | some _ => false

/-- Shape of a present `상태` value: a dict whose `status` and `select`
payloads, when present, are dicts (the `type` tag may be anything). -/
def statusOk (v : J) : Bool :=
  match v with
  | .obj fs => statusPayloadOk fs "status" && statusPayloadOk fs "select"
  | _ => false

/-- Shape of a present `상위 항목` value: a dict whose `relation`, when
present, is `None` or a list that is empty or starts with a dict carrying
`id`. -/
def parentOk (v : J) : Bool :=
  match v with
  | .obj fs =>
    match List.lookup "relation" fs with
    | none => true
    | some .null => true
    | some (.arr []) => true
    | some (.arr (x :: _)) =>
      match x with
      | .obj gs => (List.lookup "id" gs).isSome
      | _ => false
    | some _ => false
  | _ => false

/-- Absent keys are always fine (the defaults kick in). -/
def propOk (f : J → Bool) : Option J → Bool
  | none => true
  | some v => f v

/-- A record the normalizer is guaranteed not to raise on: a dict with an
`id` key whose `properties`, when present, is a dict whose four consumed
properties each pass their shape check when present. -/
def wellShaped (item : J) : Bool :=
  match item with
  | .obj fs =>
    (List.lookup "id" fs).isSome &&
    (match List.lookup "properties" fs with
     | none => true
     | some (.obj ps) =>
       propOk titleOk (List.lookup "프로젝트 이름" ps) &&
       propOk dateOk (List.lookup "종료일" ps) &&
       propOk statusOk (List.lookup "상태" ps) &&
       propOk parentOk (List.lookup "상위 항목" ps)
     | some _ => false)
  | _ => false

/-- A properties dict whose title is absent or the empty list: the
exclusion cases the spec names (the extracted name defaults to
`"이름 없음"`). -/
def titleEmpty (ps : List (String × J)) : Bool :=
  match List.lookup "프로젝트 이름" ps with
  | none => true
  | some (J.obj ts) =>
    match List.lookup "title" ts with
    | none => true
    | some (J.arr []) => true
    | some _ => false
  | some _ => false

/-- A record whose property bag is absent or has an absent/empty title. -/
def titleMissing (fs : List (String × J)) : Bool :=
  match List.lookup "properties" fs with
  | none => true
  | some (J.obj ps) => titleEmpty ps
  | some _ => false

/-- A properties dict whose due-date payload is absent or null. -/
def dateMissing (ps : List (String × J)) : Bool :=
  match List.lookup "종료일" ps with
  | none => true
  | some (J.obj fs) =>
    match List.lookup "date" fs with
    | none => true
    | some J.null => true
    | some _ => false
  | some _ => false

/-- A properties dict whose status type tag matches neither the
fixed-status shape nor the free-select shape. -/
def statusTagNeither (ps : List (String × J)) : Bool :=
  match List.lookup "상태" ps with
  | none => true
  | some (J.obj fs) =>
    match List.lookup "type" fs with
    | none => true
    | some v => !(pyEqStr v "status") && !(pyEqStr v "select")
  | some _ => false

/-- A properties dict whose parent relation is absent, null or the empty
list. -/
def relationEmpty (ps : List (String × J)) : Bool :=
  match List.lookup "상위 항목" ps with
  | none => true
  | some (J.obj fs) =>
    match List.lookup "relation" fs with
    | none => true
    | some J.null => true
    | some (J.arr []) => true
    | some _ => false
  | some _ => false

/-! ## Sorting

Python's `sorted` / `list.sort` are stable; a stable sort by a fixed key is
uniquely determined, so a stable insertion sort is a faithful embedding. -/

/-- Insert `a` after every element `b` with `le b a` (so elements equal to
`a` that were already present stay in front: stability). -/
def insertOrd {α : Type} (le : α → α → Bool) (a : α) : List α → List α
  | [] => [a]
  | b :: bs => if le b a then b :: insertOrd le a bs else a :: b :: bs

/-- Stable insertion sort (left-to-right fold of `insertOrd`). -/
def sortBy {α : Type} (le : α → α → Bool) (l : List α) : List α :=
  l.foldl (fun acc a => insertOrd le a acc) []

/-- Lexicographic comparison of char lists by code point, as Python compares
strings. -/
def charListLe : List Char → List Char → Bool
  | [], _ => true
  | _ :: _, [] => false
  | a :: as, b :: bs =>
    if a.toNat < b.toNat then true
    else if b.toNat < a.toNat then false
    else charListLe as bs

/-- String `≤`, by code points. -/
def strLe (a b : String) : Bool := charListLe a.toList b.toList

/-- Row comparison used by `sort_values(by="이름", ascending=True)`. -/
def nameLe (a b : Task) : Bool := strLe a.name b.name

/-- Detail comparison used by `descendant_end_details.sort(key=lambda x: x['date'])`. -/
def dateLe (a b : Detail) : Bool := decide (a.date ≤ b.date)

/-! ## Top-level task selection (gantt.py lines 146-150) -/

/-- `df[df["상위 항목 ID"].isnull()]`: rows whose parent reference is null. -/
def top_level_select (df : List Task) : List Task :=
  df.filter (fun t => t.parent_id.isNone)

/-- `top_level_tasks`: the null-parent rows, sorted ascending by `이름`. -/
def topLevelTasks (df : List Task) : List Task :=
  sortBy nameLe (top_level_select df)

/-! ## Vertical layout (gantt.py lines 190-211) -/

/-- Python dict assignment `m[k] = v`: overwrite in place if the key
exists, else append in insertion order. -/
def dictInsert {β : Type} (m : List (String × β)) (k : String) (v : β) :
    List (String × β) :=
  match m with
  | [] => [(k, v)]
  | (q, w) :: rest =>
    if q = k then (k, v) :: rest else (q, w) :: dictInsert rest k v

/-- `y_axis_spacing_factor = 20.0`. All float arithmetic on the y axis
multiplies or adds small integers, which is exact, so the embedding uses
`Int`. -/
def y_axis_spacing_factor : Int := 20

/-- `y_axis_map = {name: i * y_axis_spacing_factor for i, name in
enumerate(top_level_tasks["이름"].tolist())}` (a Python dict comprehension:
duplicate names overwrite). -/
def y_axis_map (tops : List Task) : List (String × Int) :=
  tops.enum.foldl
    (fun m p => dictInsert m p.2.name ((p.1 : Int) * y_axis_spacing_factor))
    []

/-- `y_tickvals = list(y_axis_map.values())`. -/
def y_tickvals (tops : List Task) : List Int :=
  (y_axis_map tops).map Prod.snd

/-- `y_ticktext = list(y_axis_map.keys())`. -/
def y_ticktext (tops : List Task) : List String :=
  (y_axis_map tops).map Prod.fst

/-- The y-axis display range `[y_range_min, y_range_max]`: last tick value
plus one spacing unit, first tick value minus one spacing unit; the
sentinel `(1, 0)` when there are no ticks. The first component exceeds the
second, which is how the axis direction is reversed. -/
def y_range (tickvals : List Int) : Int × Int :=
  if tickvals.isEmpty then (1, 0)
  else (tickvals.getLastD 0 + 1 * y_axis_spacing_factor,
        tickvals.headD 0 - 1 * y_axis_spacing_factor)

/-! ## Date range and colors (gantt.py lines 161-188) -/

/-- All descendant end dates over the top-level tasks (line 161-168);
these feed `valid_end_dates` (the collector only ever records non-NaT
dates, so `dropna` keeps everything). -/
def all_descendant_end_dates (fuel : Nat) (df : List Task) :
    Option (List Int) :=
  (topLevelTasks df).foldlM
    (fun acc t => do
      let ds ← get_descendant_end_details fuel t.id df (buildParentChildMap df)
      pure (acc ++ ds.map (·.date)))
    []

/-- `min_date`: minimum of the valid end dates, or now − 30 days. -/
def min_date (now : Int) (dates : List Int) : Int :=
  match dates.min? with
  | some m => m
  | none => now - 30

/-- `max_date`: maximum of the valid end dates, or now + 30 days. -/
def max_date (now : Int) (dates : List Int) : Int :=
  match dates.max? with
  | some m => m
  | none => now + 30

/-- `px.colors.qualitative.Plotly`, the fixed 10-entry palette. -/
def plotly_qualitative_colors : List String :=
  ["#636EFA", "#EF553B", "#00CC96", "#AB63FA", "#FFA15A",
   "#19D3F3", "#FF6692", "#B6E880", "#FF97FF", "#FECB52"]

/-- `all_descendant_names = sorted(list(set(...)))`: the distinct names of
all collected descendants over every top-level task, in ascending order. -/
def all_descendant_names (fuel : Nat) (df : List Task) :
    Option (List String) :=
  match (topLevelTasks df).foldlM
      (fun acc t => do
        let ds ← get_descendant_end_details fuel t.id df
          (buildParentChildMap df)
        pure (acc ++ ds.map (·.name)))
      [] with
  | none => none
  | some names => some (sortBy strLe names.dedup)

/-- `color_map[name] = plotly_qualitative_colors[i % len(...)]` for
`i, name in enumerate(all_descendant_names)`. -/
def color_map_of (names : List String) : List (String × String) :=
  names.enum.foldl
    (fun m p =>
      dictInsert m p.2
        (plotly_qualitative_colors.getD
          (p.1 % plotly_qualitative_colors.length) ""))
    []

/-! ## Figure assembly (gantt.py lines 152-302) -/

/-- One `go.Scatter` trace: dates, y positions, per-point colors and the
descendant names behind the point labels. -/
structure Trace where
  x : List Int
  y : List Int
  marker_colors : List String
  point_names : List String
deriving Repr, DecidableEq

/-- The parts of the emitted `go.Figure` the spec talks about: the x-axis
(autorange, no explicit range is ever set), the manual y ticks and range,
and the per-root traces. -/
structure Figure where
  xaxis_autorange : Bool
  xaxis_range : Option (Int × Int)
  yaxis_tickvals : List Int
  yaxis_ticktext : List String
  yaxis_range : Int × Int
  traces : List Trace
deriving Repr, DecidableEq

/-- The trace added for one top-level task (lines 223-267): details are
first sorted ascending by date, then emitted as x dates, a constant y
position, and colors looked up by descendant name. -/
def emitTrace (ypos : Int) (details : List Detail)
    (cmap : List (String × String)) : Trace :=
  let sorted := sortBy dateLe details
  { x := sorted.map (·.date)
    y := sorted.map (fun _ => ypos)
    marker_colors := sorted.map (fun d => (List.lookup d.name cmap).getD "")
    point_names := sorted.map (·.name) }

/-- `create_timeline_chart(df)`: build the parent/child map, collect the
descendants of every top-level task (fuel-bounded), assign colors, compute
the vertical layout, and emit one trace per top-level task that has at
least one collected detail. The x-axis is configured with
`autorange=True` and no explicit range. -/
def create_timeline_chart (fuel : Nat) (df : List Task) : Option Figure :=
  match all_descendant_names fuel df with
  | none => none
  | some names =>
    match (topLevelTasks df).foldlM
        (fun acc t => do
          let ds ← get_descendant_end_details fuel t.id df
            (buildParentChildMap df)
          pure (if ds.isEmpty then acc
                else acc ++ [emitTrace
                  ((List.lookup t.name (y_axis_map (topLevelTasks df))).getD 0)
                  ds (color_map_of names)]))
        [] with
    | none => none
    | some traces =>
      some
        { xaxis_autorange := true
          xaxis_range := none
          yaxis_tickvals := y_tickvals (topLevelTasks df)
          yaxis_ticktext := y_ticktext (topLevelTasks df)
          yaxis_range := y_range (y_tickvals (topLevelTasks df))
          traces := traces }

/-! ## Dynamic height (gantt.py lines 332-343) -/

/-- Python `int(…)`: truncation toward zero. -/
def pyInt (q : ℚ) : Int := if 0 ≤ q then ⌊q⌋ else ⌈q⌉

/-- `dynamic_height = max(min_chart_height, int(num_categories *
height_per_actual_category * (range[0] - range[1]) / len(top_level_tasks)))`
with `min_chart_height = 250` and `height_per_actual_category = 50`.
The division by `len(top_level_tasks)` raises `ZeroDivisionError` when
there are no top-level tasks, modelled as `none`. -/
def dynamic_height (fig : Figure) (tops : List Task) : Option Int :=
  if tops.length = 0 then none
  else
    some (max 250 (pyInt ((tops.length : ℚ) * 50 *
      ((fig.yaxis_range.1 - fig.yaxis_range.2 : Int) : ℚ) / (tops.length : ℚ))))

/-! ## Spec-worded reference definitions (for comparison with the code) -/

/-- As the spec words it: a y display range that brackets the tick
positions with half a spacing unit of padding on each end (same degenerate
sentinel for no ticks). To be compared with `y_range`, the range the code
computes. -/
def y_range_half_padded (tickvals : List Int) : Int × Int :=
  if tickvals.isEmpty then (1, 0)
  else (tickvals.getLastD 0 + y_axis_spacing_factor / 2,
        tickvals.headD 0 - y_axis_spacing_factor / 2)

/-- As the spec words it: suggested display height
`max(minimum_height, root_count * per_root_height)` with the script's
constants `minimum_height = 250`, `per_root_height = 50`, defined for
every root count. To be compared with `dynamic_height`. -/
def heightSpec (root_count : Nat) : Int :=
  max 250 ((root_count : Int) * 50)

/-- A rank function witnessing acyclicity of a parent→children map: every
child listed under a parent has strictly smaller rank. -/
def AcyclicRank (pcm : List (String × List String)) (r : String → Nat) : Prop :=
  ∀ p cs, List.lookup p pcm = some cs → ∀ c ∈ cs, r c < r p

/-! # Lemmas -/

theorem insertOrd_perm {α : Type} (le : α → α → Bool) (a : α) :
    ∀ l : List α, (insertOrd le a l).Perm (a :: l)
  | [] => List.Perm.refl _
  | b :: bs => by
    simp only [insertOrd]
    split
    · exact ((insertOrd_perm le a bs).cons b).trans (List.Perm.swap a b bs)
    · exact List.Perm.refl _

theorem foldl_insertOrd_perm {α : Type} (le : α → α → Bool) :
    ∀ (l acc : List α),
      (l.foldl (fun acc a => insertOrd le a acc) acc).Perm (acc ++ l)
  | [], acc => by simp
  | a :: l, acc => by
    simp only [List.foldl_cons]
    refine (foldl_insertOrd_perm le l (insertOrd le a acc)).trans ?_
    exact (((insertOrd_perm le a acc).append_right l).trans List.perm_middle.symm)

theorem sortBy_perm {α : Type} (le : α → α → Bool) (l : List α) :
    (sortBy le l).Perm l := by
  simpa using foldl_insertOrd_perm le l []

theorem insertOrd_pairwise {α : Type} (le : α → α → Bool)
    (htrans : ∀ a b c, le a b = true → le b c = true → le a c = true)
    (htot : ∀ a b, le a b = true ∨ le b a = true) (a : α) :
    ∀ l : List α, List.Pairwise (fun x y => le x y = true) l →
      List.Pairwise (fun x y => le x y = true) (insertOrd le a l)
  | [], _ => by simp [insertOrd]
  | b :: bs, h => by
    rcases List.pairwise_cons.mp h with ⟨hb, hbs⟩
    simp only [insertOrd]
    split
    · rename_i hba
      refine List.pairwise_cons.mpr
        ⟨?_, insertOrd_pairwise le htrans htot a bs hbs⟩
      intro x hx
      rcases List.mem_cons.mp ((insertOrd_perm le a bs).mem_iff.mp hx) with
        rfl | hxbs
      · exact hba
      · exact hb x hxbs
    · rename_i hba
      have hab : le a b = true := (htot a b).resolve_right hba
      refine List.pairwise_cons.mpr ⟨?_, h⟩
      intro x hx
      rcases List.mem_cons.mp hx with rfl | hxbs
      · exact hab
      · exact htrans a b x hab (hb x hxbs)

theorem foldl_insertOrd_pairwise {α : Type} (le : α → α → Bool)
    (htrans : ∀ a b c, le a b = true → le b c = true → le a c = true)
    (htot : ∀ a b, le a b = true ∨ le b a = true) :
    ∀ (l acc : List α), List.Pairwise (fun x y => le x y = true) acc →
      List.Pairwise (fun x y => le x y = true)
        (l.foldl (fun acc a => insertOrd le a acc) acc)
  | [], _, h => h
  | a :: l, acc, h =>
    foldl_insertOrd_pairwise le htrans htot l _
      (insertOrd_pairwise le htrans htot a acc h)

theorem sortBy_pairwise {α : Type} (le : α → α → Bool)
    (htrans : ∀ a b c, le a b = true → le b c = true → le a c = true)
    (htot : ∀ a b, le a b = true ∨ le b a = true) (l : List α) :
    List.Pairwise (fun x y => le x y = true) (sortBy le l) :=
  foldl_insertOrd_pairwise le htrans htot l [] List.Pairwise.nil

theorem charListLe_trans :
    ∀ a b c : List Char,
      charListLe a b = true → charListLe b c = true → charListLe a c = true
  | [], _, _, _, _ => rfl
  | _ :: _, [], _, hab, _ => by simp [charListLe] at hab
  | _ :: _, _ :: _, [], _, hbc => by simp [charListLe] at hbc
  | a :: as, b :: bs, c :: cs, hab, hbc => by
    simp only [charListLe] at hab hbc ⊢
    split at hab
    · rename_i h1
      split at hbc
      · rename_i h2
        rw [if_pos (Nat.lt_trans h1 h2)]
      · split at hbc
        · exact absurd hbc (by simp)
        · rename_i h2 h3
          rw [if_pos (by omega : a.toNat < c.toNat)]
    · split at hab
      · exact absurd hab (by simp)
      · rename_i h1 h2
        split at hbc
        · rename_i h3
          rw [if_pos (by omega : a.toNat < c.toNat)]
        · split at hbc
          · exact absurd hbc (by simp)
          · rename_i h3 h4
            rw [if_neg (by omega : ¬a.toNat < c.toNat),
              if_neg (by omega : ¬c.toNat < a.toNat)]
            exact charListLe_trans as bs cs hab hbc

theorem charListLe_total :
    ∀ a b : List Char, charListLe a b = true ∨ charListLe b a = true
  | [], _ => Or.inl rfl
  | _ :: _, [] => Or.inr rfl
  | a :: as, b :: bs => by
    simp only [charListLe]
    rcases Nat.lt_trichotomy a.toNat b.toNat with h | h | h
    · left; rw [if_pos h]
    · rw [if_neg (by omega : ¬a.toNat < b.toNat),
        if_neg (by omega : ¬b.toNat < a.toNat),
        if_neg (by omega : ¬b.toNat < a.toNat),
        if_neg (by omega : ¬a.toNat < b.toNat)]
      exact charListLe_total as bs
    · right; rw [if_pos h]

theorem strLe_trans (a b c : String) (hab : strLe a b = true)
    (hbc : strLe b c = true) : strLe a c = true :=
  charListLe_trans a.toList b.toList c.toList hab hbc

theorem strLe_total (a b : String) : strLe a b = true ∨ strLe b a = true :=
  charListLe_total a.toList b.toList

theorem nameLe_trans (a b c : Task) (hab : nameLe a b = true)
    (hbc : nameLe b c = true) : nameLe a c = true :=
  strLe_trans a.name b.name c.name hab hbc

theorem nameLe_total (a b : Task) : nameLe a b = true ∨ nameLe b a = true :=
  strLe_total a.name b.name

theorem dateLe_trans (a b c : Detail) (hab : dateLe a b = true)
    (hbc : dateLe b c = true) : dateLe a c = true := by
  simp only [dateLe, decide_eq_true_eq] at *
  omega

theorem dateLe_total (a b : Detail) : dateLe a b = true ∨ dateLe b a = true := by
  simp only [dateLe, decide_eq_true_eq]
  omega

/-- Unfolding the collector at zero fuel. -/
theorem collect_zero (id : String) (df : List Task)
    (pcm : List (String × List String)) :
    get_descendant_end_details 0 id df pcm = none := rfl

/-- Unfolding the collector at successor fuel. -/
theorem collect_succ (n : Nat) (id : String) (df : List Task)
    (pcm : List (String × List String)) :
    get_descendant_end_details (n + 1) id df pcm =
      match List.lookup id pcm with
      | none => some []
      | some children =>
        children.foldlM
          (fun acc child_id => do
            let rest ← get_descendant_end_details n child_id df pcm
            pure (acc ++ detailOf df child_id ++ rest))
          [] := rfl

/-- On a mutual two-cycle in the parent→children map, the collector never
returns, whatever the recursion depth. -/
theorem collect_two_cycle (df : List Task) (a b : String)
    (pcm : List (String × List String))
    (ha : List.lookup a pcm = some [b]) (hb : List.lookup b pcm = some [a]) :
    ∀ n : Nat,
      get_descendant_end_details n a df pcm = none ∧
      get_descendant_end_details n b df pcm = none := by
  intro n
  induction n with
  | zero => exact ⟨rfl, rfl⟩
  | succ n ih =>
    constructor
    · rw [collect_succ, ha]
      simp only [List.foldlM_cons, List.foldlM_nil]
      rw [ih.2]
      rfl
    · rw [collect_succ, hb]
      simp only [List.foldlM_cons, List.foldlM_nil]
      rw [ih.1]
      rfl

theorem collect_foldlM_isSome (n : Nat) (df : List Task)
    (pcm : List (String × List String)) :
    ∀ (cs : List String) (acc : List Detail),
      (∀ c ∈ cs, (get_descendant_end_details n c df pcm).isSome = true) →
      (cs.foldlM
        (fun acc child_id => do
          let rest ← get_descendant_end_details n child_id df pcm
          pure (acc ++ detailOf df child_id ++ rest)) acc).isSome = true
  | [], acc, _ => by simp [List.foldlM_nil]
  | c :: cs, acc, h => by
    obtain ⟨l, hl⟩ :=
      Option.isSome_iff_exists.mp (h c (List.mem_cons_self c cs))
    simp only [List.foldlM_cons, hl]
    exact collect_foldlM_isSome n df pcm cs _
      (fun c' hc' => h c' (List.mem_cons_of_mem c hc'))

theorem collect_isSome_of_rank (df : List Task)
    (pcm : List (String × List String)) (r : String → Nat)
    (hA : AcyclicRank pcm r) :
    ∀ (n : Nat) (id : String), r id < n →
      (get_descendant_end_details n id df pcm).isSome = true
  | 0, _, h => absurd h (Nat.not_lt_zero _)
  | n + 1, id, h => by
    rw [collect_succ]
    cases hl : List.lookup id pcm with
    | none => rfl
    | some cs =>
      exact collect_foldlM_isSome n df pcm cs []
        (fun c hc =>
          collect_isSome_of_rank df pcm r hA n c
            (Nat.lt_of_lt_of_le (hA id cs hl c hc) (Nat.lt_succ_iff.mp h)))

/-- Unfolding the pre-order traversal at zero fuel. -/
theorem preorder_zero (id : String) (pcm : List (String × List String)) :
    preorderDescendants 0 id pcm = none := rfl

/-- Unfolding the pre-order traversal at successor fuel. -/
theorem preorder_succ (n : Nat) (id : String)
    (pcm : List (String × List String)) :
    preorderDescendants (n + 1) id pcm =
      match List.lookup id pcm with
      | none => some []
      | some children =>
        children.foldlM
          (fun acc child_id => do
            let rest ← preorderDescendants n child_id pcm
            pure (acc ++ [child_id] ++ rest))
          [] := rfl

theorem toDetails_append (df : List Task) (xs ys : List String) :
    toDetails df (xs ++ ys) = toDetails df xs ++ toDetails df ys := by
  simp [toDetails]

theorem toDetails_single (df : List Task) (c : String) :
    toDetails df [c] = detailOf df c := by
  simp [toDetails]

theorem collect_fold_eq (df : List Task) (pcm : List (String × List String))
    (n : Nat)
    (hIH : ∀ c : String,
      get_descendant_end_details n c df pcm =
        (preorderDescendants n c pcm).map (toDetails df)) :
    ∀ (cs ids : List String),
      cs.foldlM
          (fun acc child_id => do
            let rest ← get_descendant_end_details n child_id df pcm
            pure (acc ++ detailOf df child_id ++ rest))
          (toDetails df ids) =
        (cs.foldlM
            (fun acc child_id => do
              let rest ← preorderDescendants n child_id pcm
              pure (acc ++ [child_id] ++ rest))
            ids).map (toDetails df)
  | [], ids => by simp [List.foldlM_nil]
  | c :: cs, ids => by
    simp only [List.foldlM_cons, hIH c]
    cases hpre : preorderDescendants n c pcm with
    | none => rfl
    | some restIds =>
      have hacc : toDetails df ids ++ detailOf df c ++ toDetails df restIds =
          toDetails df (ids ++ [c] ++ restIds) := by
        rw [toDetails_append, toDetails_append, toDetails_single]
      show (cs.foldlM _ (toDetails df ids ++ detailOf df c ++ toDetails df restIds)) = _
      rw [hacc]
      exact collect_fold_eq df pcm n hIH cs (ids ++ [c] ++ restIds)

/-- The collector is exactly the filtered, mapped pre-order traversal: one
detail per visited id that has an indexed row with a defined due date. -/
theorem collect_eq_preorder (df : List Task)
    (pcm : List (String × List String)) :
    ∀ (n : Nat) (id : String),
      get_descendant_end_details n id df pcm =
        (preorderDescendants n id pcm).map (toDetails df)
  | 0, _ => rfl
  | n + 1, id => by
    rw [collect_succ, preorder_succ]
    cases List.lookup id pcm with
    | none => rfl
    | some cs =>
      exact collect_fold_eq df pcm n (collect_eq_preorder df pcm n) cs []

theorem preorder_fold_rank (pcm : List (String × List String))
    (r : String → Nat) (n : Nat) (bound : Nat) :
    ∀ (cs acc out : List String),
      cs.foldlM
          (fun acc child_id => do
            let rest ← preorderDescendants n child_id pcm
            pure (acc ++ [child_id] ++ rest))
          acc = some out →
      (∀ x ∈ acc, r x < bound) →
      (∀ c ∈ cs, r c < bound) →
      (∀ c ∈ cs, ∀ ids, preorderDescendants n c pcm = some ids →
        ∀ x ∈ ids, r x < r c) →
      ∀ x ∈ out, r x < bound
  | [], acc, out, hfold, hacc, _, _ => by
    simp only [List.foldlM_nil] at hfold
    cases hfold
    exact hacc
  | c :: cs, acc, out, hfold, hacc, hcs, hrec => by
    simp only [List.foldlM_cons] at hfold
    cases hpre : preorderDescendants n c pcm with
    | none =>
      rw [hpre] at hfold
      cases hfold
    | some ids =>
      rw [hpre] at hfold
      refine preorder_fold_rank pcm r n bound cs (acc ++ [c] ++ ids) out hfold
        ?_ (fun c' hc' => hcs c' (List.mem_cons_of_mem _ hc'))
        (fun c' hc' => hrec c' (List.mem_cons_of_mem _ hc'))
      intro x hx
      rcases List.mem_append.mp hx with hx' | hxids
      · rcases List.mem_append.mp hx' with hxa | hxc
        · exact hacc x hxa
        · simp only [List.mem_singleton] at hxc
          exact hxc ▸ hcs c (List.mem_cons_self _ _)
      · exact Nat.lt_trans (hrec c (List.mem_cons_self _ _) ids hpre x hxids)
          (hcs c (List.mem_cons_self _ _))

/-- Under a rank function, every id visited by the pre-order traversal has
rank strictly below its root. -/
theorem preorder_rank_lt (pcm : List (String × List String))
    (r : String → Nat) (hA : AcyclicRank pcm r) :
    ∀ (n : Nat) (id : String) (ids : List String),
      preorderDescendants n id pcm = some ids → ∀ x ∈ ids, r x < r id
  | 0, _, _, h => by cases h
  | n + 1, id, ids, h => by
    rw [preorder_succ] at h
    cases hl : List.lookup id pcm with
    | none =>
      rw [hl] at h
      cases h
      intro x hx
      cases hx
    | some cs =>
      rw [hl] at h
      exact preorder_fold_rank pcm r n (r id) cs [] ids h
        (by intro x hx; cases hx) (hA id cs hl)
        (fun c _ => preorder_rank_lt pcm r hA n c)

theorem lookup_mem {β : Type} :
    ∀ {m : List (String × β)} {q : String} {cs : β},
      List.lookup q m = some cs → (q, cs) ∈ m
  | [], _, _, h => by simp [List.lookup] at h
  | (a, b) :: m, q, cs, h => by
    rcases hqa : q == a with _ | _
    · simp only [List.lookup, hqa] at h
      exact List.mem_cons_of_mem _ (lookup_mem h)
    · simp only [List.lookup, hqa] at h
      cases h
      cases eq_of_beq hqa
      exact List.mem_cons_self _ _

theorem pcmInsert_children_sub {S : List String} :
    ∀ (m : List (String × List String)) (p c : String),
      (∀ q cs, (q, cs) ∈ m → ∀ x ∈ cs, x ∈ S) → c ∈ S →
      ∀ q cs, (q, cs) ∈ pcmInsert m p c → ∀ x ∈ cs, x ∈ S
  | [], p, c, _, hc, q, cs, hmem => by
    simp only [pcmInsert, List.mem_singleton] at hmem
    cases hmem
    intro x hx
    simp only [List.mem_singleton] at hx
    exact hx ▸ hc
  | (a, bs) :: m, p, c, h, hc, q, cs, hmem => by
    simp only [pcmInsert] at hmem
    split at hmem
    · rcases List.mem_cons.mp hmem with heq | htail
      · cases heq
        intro x hx
        rcases List.mem_append.mp hx with hxa | hxc
        · exact h a bs (List.mem_cons_self _ _) x hxa
        · simp only [List.mem_singleton] at hxc
          exact hxc ▸ hc
      · exact h q cs (List.mem_cons_of_mem _ htail)
    · rcases List.mem_cons.mp hmem with heq | htail
      · cases heq
        exact h a bs (List.mem_cons_self _ _)
      · exact pcmInsert_children_sub m p c
          (fun q' cs' hm => h q' cs' (List.mem_cons_of_mem _ hm)) hc q cs htail

theorem buildPCM_aux (df : List Task) :
    ∀ (l : List Task) (m : List (String × List String)),
      (∀ t ∈ l, t.id ∈ df.map (·.id)) →
      (∀ q cs, (q, cs) ∈ m → ∀ x ∈ cs, x ∈ df.map (·.id)) →
      ∀ q cs,
        (q, cs) ∈ l.foldl
          (fun m t =>
            match t.parent_id with
            | some p =>
              if (df.map (·.id)).contains p then pcmInsert m p t.id else m
            | none => m) m →
        ∀ x ∈ cs, x ∈ df.map (·.id)
  | [], _, _, hm, q, cs, hmem => hm q cs hmem
  | t :: l, m, hl, hm, q, cs, hmem => by
    simp only [List.foldl_cons] at hmem
    refine buildPCM_aux df l _ (fun t' ht' => hl t' (List.mem_cons_of_mem _ ht'))
      ?_ q cs hmem
    cases hp : t.parent_id with
    | none => simp only [hp]; exact hm
    | some p =>
      simp only [hp]
      by_cases hin : ((df.map (·.id)).contains p = true)
      · rw [if_pos hin]
        exact pcmInsert_children_sub m p t.id hm (hl t (List.mem_cons_self _ _))
      · rw [if_neg hin]
        exact hm

theorem buildPCM_children_sub (df : List Task) :
    ∀ q cs, (q, cs) ∈ buildParentChildMap df → ∀ x ∈ cs, x ∈ df.map (·.id) := by
  intro q cs hmem
  exact buildPCM_aux df df [] (fun t ht => List.mem_map_of_mem (·.id) ht)
    (by intro q' cs' h; simp at h) q cs hmem

theorem dictInsert_not_mem {β : Type} :
    ∀ (m : List (String × β)) (k : String) (v : β),
      k ∉ m.map Prod.fst → dictInsert m k v = m ++ [(k, v)]
  | [], _, _, _ => rfl
  | (a, w) :: m, k, v, h => by
    simp only [List.map_cons, List.mem_cons] at h
    push_neg at h
    simp only [dictInsert]
    rw [if_neg (fun hak => h.1 hak.symm), List.cons_append]
    rw [dictInsert_not_mem m k v h.2]

theorem foldl_dictInsert_map {α β : Type} (key : α → String)
    (val : Nat → α → β) :
    ∀ (xs : List α) (i : Nat) (m : List (String × β)),
      (xs.map key).Nodup →
      (∀ x ∈ xs, key x ∉ m.map Prod.fst) →
      (List.enumFrom i xs).foldl
          (fun m p => dictInsert m (key p.2) (val p.1 p.2)) m =
        m ++ (List.enumFrom i xs).map (fun p => (key p.2, val p.1 p.2))
  | [], _, m, _, _ => by simp
  | x :: xs, i, m, hnd, hm => by
    simp only [List.map_cons, List.nodup_cons] at hnd
    show (List.enumFrom (i + 1) xs).foldl _
        (dictInsert m (key x) (val i x)) = _
    rw [dictInsert_not_mem m (key x) (val i x) (hm x (List.mem_cons_self _ _))]
    rw [foldl_dictInsert_map key val xs (i + 1) _ hnd.2 ?_]
    · simp
    · intro x' hx'
      simp only [List.map_append, List.map_cons, List.map_nil,
        List.mem_append, List.mem_singleton]
      rintro (hin | heq)
      · exact hm x' (List.mem_cons_of_mem _ hx') hin
      · exact hnd.1 (heq ▸ List.mem_map_of_mem key hx')

theorem y_axis_map_eq (tops : List Task)
    (hnd : (tops.map (·.name)).Nodup) :
    y_axis_map tops =
      tops.enum.map
        (fun p => (p.2.name, (p.1 : Int) * y_axis_spacing_factor)) := by
  have h := foldl_dictInsert_map (fun t => t.name)
    (fun i _ => (i : Int) * y_axis_spacing_factor) tops 0 [] hnd (by simp)
  show (List.enumFrom 0 tops).foldl _ [] = (List.enumFrom 0 tops).map _
  simpa using h

theorem y_tickvals_eq (tops : List Task)
    (hnd : (tops.map (·.name)).Nodup) :
    y_tickvals tops =
      (List.range tops.length).map
        (fun i : Nat => (i : Int) * y_axis_spacing_factor) := by
  unfold y_tickvals
  rw [y_axis_map_eq tops hnd, List.map_map, ← List.enum_map_fst tops,
    List.map_map]
  rfl

theorem y_ticktext_eq (tops : List Task)
    (hnd : (tops.map (·.name)).Nodup) :
    y_ticktext tops = tops.map (·.name) := by
  unfold y_ticktext
  rw [y_axis_map_eq tops hnd, List.map_map]
  conv_rhs => rw [← List.enum_map_snd tops, List.map_map]
  rfl

theorem y_range_eq (n : Nat) (hn : n ≠ 0) :
    y_range
        ((List.range n).map
          (fun i : Nat => (i : Int) * y_axis_spacing_factor)) =
      ((n : Int) * y_axis_spacing_factor, -y_axis_spacing_factor) := by
  obtain ⟨m, rfl⟩ := Nat.exists_eq_succ_of_ne_zero hn
  unfold y_range
  rw [if_neg (by simp [List.range_succ])]
  have hlast :
      ((List.range (m + 1)).map
        (fun i : Nat => (i : Int) * y_axis_spacing_factor)).getLastD 0 =
        (m : Int) * y_axis_spacing_factor := by
    rw [List.range_succ, List.map_append]
    simp
  have hhead :
      ((List.range (m + 1)).map
        (fun i : Nat => (i : Int) * y_axis_spacing_factor)).headD 0 = 0 := by
    rw [List.range_succ_eq_map]
    simp
  rw [hlast, hhead]
  unfold y_axis_spacing_factor
  simp only [Prod.mk.injEq]
  constructor
  · push_cast
    ring
  · norm_num

theorem collect_fold_mono (df : List Task)
    (pcm : List (String × List String)) (n m : Nat)
    (hmono : ∀ id l, get_descendant_end_details n id df pcm = some l →
      get_descendant_end_details m id df pcm = some l) :
    ∀ (cs : List String) (acc out : List Detail),
      cs.foldlM
          (fun acc child_id => do
            let rest ← get_descendant_end_details n child_id df pcm
            pure (acc ++ detailOf df child_id ++ rest)) acc = some out →
      cs.foldlM
          (fun acc child_id => do
            let rest ← get_descendant_end_details m child_id df pcm
            pure (acc ++ detailOf df child_id ++ rest)) acc = some out
  | [], _, _, h => h
  | c :: cs, acc, out, h => by
    simp only [List.foldlM_cons] at h ⊢
    cases hc : get_descendant_end_details n c df pcm with
    | none =>
      rw [hc] at h
      exact Option.noConfusion h
    | some rest =>
      rw [hc] at h
      rw [hmono c rest hc]
      exact collect_fold_mono df pcm n m hmono cs _ out h

/-- The collector's successful results are stable under extra fuel. -/
theorem collect_mono (df : List Task) (pcm : List (String × List String)) :
    ∀ (n m : Nat), n ≤ m →
      ∀ id l, get_descendant_end_details n id df pcm = some l →
        get_descendant_end_details m id df pcm = some l
  | 0, _, _, _, _, h => by rw [collect_zero] at h; cases h
  | n + 1, 0, hnm, _, _, _ => absurd hnm (by omega)
  | n + 1, m + 1, hnm, id, l, h => by
    rw [collect_succ] at h ⊢
    cases hl : List.lookup id pcm with
    | none => rw [hl] at h; exact h
    | some cs =>
      rw [hl] at h
      exact collect_fold_mono df pcm n m
        (fun id' l' => collect_mono df pcm n m (by omega) id' l') cs [] l h

theorem names_fold_mono (df : List Task)
    (pcm : List (String × List String)) (n m : Nat)
    (hmono : ∀ id l, get_descendant_end_details n id df pcm = some l →
      get_descendant_end_details m id df pcm = some l) :
    ∀ (ts : List Task) (acc out : List String),
      ts.foldlM
          (fun acc t => do
            let ds ← get_descendant_end_details n t.id df pcm
            pure (acc ++ ds.map (·.name))) acc = some out →
      ts.foldlM
          (fun acc t => do
            let ds ← get_descendant_end_details m t.id df pcm
            pure (acc ++ ds.map (·.name))) acc = some out
  | [], _, _, h => h
  | t :: ts, acc, out, h => by
    simp only [List.foldlM_cons] at h ⊢
    cases hc : get_descendant_end_details n t.id df pcm with
    | none =>
      rw [hc] at h
      exact Option.noConfusion h
    | some ds =>
      rw [hc] at h
      rw [hmono t.id ds hc]
      exact names_fold_mono df pcm n m hmono ts _ out h

/-- The sorted distinct descendant-name list is stable under extra fuel. -/
theorem all_names_mono (df : List Task) (f1 f2 : Nat) (hle : f1 ≤ f2)
    (ns : List String) (h : all_descendant_names f1 df = some ns) :
    all_descendant_names f2 df = some ns := by
  unfold all_descendant_names at h ⊢
  cases hf : ((topLevelTasks df).foldlM
      (fun (acc : List String) (t : Task) => do
        let ds ← get_descendant_end_details f1 t.id df
          (buildParentChildMap df)
        pure (acc ++ ds.map (·.name)))
      [] : Option (List String)) with
  | none => rw [hf] at h; cases h
  | some names =>
    rw [hf] at h
    rw [names_fold_mono df (buildParentChildMap df) f1 f2
      (collect_mono df (buildParentChildMap df) f1 f2 hle) _ [] names hf]
    exact h

/-- The name list the color table is built from is distinct and sorted. -/
theorem all_names_spec (fuel : Nat) (df : List Task) (ns : List String)
    (h : all_descendant_names fuel df = some ns) :
    ns.Nodup ∧ List.Pairwise (fun a b => strLe a b = true) ns := by
  unfold all_descendant_names at h
  cases hf : ((topLevelTasks df).foldlM
      (fun (acc : List String) (t : Task) => do
        let ds ← get_descendant_end_details fuel t.id df
          (buildParentChildMap df)
        pure (acc ++ ds.map (·.name)))
      [] : Option (List String)) with
  | none => rw [hf] at h; cases h
  | some names =>
    rw [hf, Option.some.injEq] at h
    subst h
    exact ⟨((sortBy_perm strLe _).nodup_iff).mpr (List.nodup_dedup names),
      sortBy_pairwise strLe strLe_trans strLe_total _⟩

theorem color_map_of_eq (ns : List String) (hnd : ns.Nodup) :
    color_map_of ns =
      ns.enum.map
        (fun p => (p.2,
          plotly_qualitative_colors.getD
            (p.1 % plotly_qualitative_colors.length) "")) := by
  have h := foldl_dictInsert_map (fun s => s)
    (fun i _ => plotly_qualitative_colors.getD
      (i % plotly_qualitative_colors.length) "") ns 0 []
    (by simpa using hnd) (by simp)
  show (List.enumFrom 0 ns).foldl _ [] = (List.enumFrom 0 ns).map _
  simpa using h

theorem lookup_enumFrom_map {β : Type} (g : Nat → β) :
    ∀ (ns : List String) (k i : Nat) (hi : i < ns.length), ns.Nodup →
      List.lookup (ns.get ⟨i, hi⟩)
        ((List.enumFrom k ns).map (fun p => (p.2, g p.1))) = some (g (k + i))
  | [], _, i, hi, _ => absurd hi (by simp)
  | x :: ns, k, 0, _, _ => by
    show List.lookup x ((x, g k) :: _) = some (g (k + 0))
    simp [List.lookup]
  | x :: ns, k, i + 1, hi, hnd => by
    obtain ⟨hx, hnd'⟩ := List.nodup_cons.mp hnd
    have hi' : i < ns.length := by simpa using hi
    have hmem : (x :: ns).get ⟨i + 1, hi⟩ ∈ ns := by
      show ns.get ⟨i, hi'⟩ ∈ ns
      exact List.get_mem ns i hi'
    have hne : ((x :: ns).get ⟨i + 1, hi⟩ == x) = false := by
      rw [beq_eq_false_iff_ne]
      intro heq
      exact hx (heq ▸ hmem)
    show List.lookup ((x :: ns).get ⟨i + 1, hi⟩)
        ((x, g k) :: (List.enumFrom (k + 1) ns).map (fun p => (p.2, g p.1))) =
      some (g (k + (i + 1)))
    simp only [List.lookup, hne]
    rw [show (x :: ns).get ⟨i + 1, hi⟩ = ns.get ⟨i, hi'⟩ from rfl]
    rw [lookup_enumFrom_map g ns (k + 1) i hi' hnd']
    rw [show k + 1 + i = k + (i + 1) from by omega]

/-- The name of sorted rank `i` is assigned the palette entry at index
`i % palette length`. -/
theorem color_map_rank (ns : List String) (hnd : ns.Nodup) (i : Nat)
    (hi : i < ns.length) :
    List.lookup (ns.get ⟨i, hi⟩) (color_map_of ns) =
      some (plotly_qualitative_colors.getD
        (i % plotly_qualitative_colors.length) "") := by
  rw [color_map_of_eq ns hnd]
  have h := lookup_enumFrom_map
    (fun j => plotly_qualitative_colors.getD
      (j % plotly_qualitative_colors.length) "") ns 0 i hi hnd
  simpa using h

theorem extractName_of_titleEmpty (ps : List (String × J))
    (h : titleEmpty ps = true) :
    extractName (J.obj ps) = Except.ok (J.str "이름 없음") := by
  unfold titleEmpty at h
  unfold extractName
  simp only [pyGet]
  cases hn : List.lookup "프로젝트 이름" ps with
  | none => rfl
  | some v =>
    rw [hn] at h
    cases v with
    | obj ts =>
      simp only [] at h
      simp only [Option.getD_some, pyGet]
      cases ht : List.lookup "title" ts with
      | none => rfl
      | some t =>
        rw [ht] at h
        cases t with
        | arr xs =>
          cases xs with
          | nil => rfl
          | cons x rest => cases h
        | null => cases h
        | str s => cases h
        | obj gs => cases h
    | null => cases h
    | str s => cases h
    | arr xs => cases h

theorem extractName_isOk (ps : List (String × J))
    (h : propOk titleOk (List.lookup "프로젝트 이름" ps) = true) :
    ∃ v, extractName (J.obj ps) = Except.ok v := by
  unfold extractName
  simp only [pyGet]
  cases hn : List.lookup "프로젝트 이름" ps with
  | none => exact ⟨_, rfl⟩
  | some v =>
    rw [hn] at h
    replace h : titleOk v = true := h
    cases v with
    | obj ts =>
      simp only [titleOk] at h
      simp only [Option.getD_some, pyGet]
      cases ht : List.lookup "title" ts with
      | none => exact ⟨_, rfl⟩
      | some t =>
        rw [ht] at h
        cases t with
        | arr xs =>
          cases xs with
          | nil => exact ⟨_, rfl⟩
          | cons x rest =>
            cases x with
            | obj gs =>
              obtain ⟨w, hw⟩ := Option.isSome_iff_exists.mp h
              refine ⟨w, ?_⟩
              show pySubscript (J.obj gs) "plain_text" = Except.ok w
              simp only [pySubscript]
              rw [hw]
            | null => cases h
            | str s => cases h
            | arr ys => cases h
        | null => cases h
        | str s => cases h
        | obj gs => cases h
    | null => cases h
    | str s => cases h
    | arr xs => cases h

theorem extractDate_of_missing (ps : List (String × J))
    (h : dateMissing ps = true) :
    extractDate (J.obj ps) = Except.ok J.null := by
  unfold dateMissing at h
  unfold extractDate
  simp only [pyGet]
  cases hd : List.lookup "종료일" ps with
  | none => rfl
  | some v =>
    rw [hd] at h
    cases v with
    | obj fs =>
      simp only [] at h
      simp only [Option.getD_some, pyGet]
      cases hdd : List.lookup "date" fs with
      | none => rfl
      | some d =>
        rw [hdd] at h
        cases d with
        | null => rfl
        | str s => cases h
        | arr xs => cases h
        | obj gs => cases h
    | null => cases h
    | str s => cases h
    | arr xs => cases h

theorem extractDate_isOk (ps : List (String × J))
    (h : propOk dateOk (List.lookup "종료일" ps) = true) :
    ∃ v, extractDate (J.obj ps) = Except.ok v := by
  unfold extractDate
  simp only [pyGet]
  cases hd : List.lookup "종료일" ps with
  | none => exact ⟨_, rfl⟩
  | some v =>
    rw [hd] at h
    replace h : dateOk v = true := h
    cases v with
    | obj fs =>
      simp only [dateOk] at h
      simp only [Option.getD_some, pyGet]
      cases hdd : List.lookup "date" fs with
      | none => exact ⟨_, rfl⟩
      | some d =>
        rw [hdd] at h
        cases d with
        | null => exact ⟨_, rfl⟩
        | obj gs =>
          cases gs with
          | nil => exact ⟨_, rfl⟩
          | cons kv rest =>
            show ∃ v,
              (if (List.lookup "start" (kv :: rest)).isSome = true
               then pySubscript (J.obj (kv :: rest)) "start"
               else Except.ok J.null) = Except.ok v
            cases hs : List.lookup "start" (kv :: rest) with
            | none => exact ⟨_, rfl⟩
            | some w =>
              refine ⟨w, ?_⟩
              show pySubscript (J.obj (kv :: rest)) "start" = Except.ok w
              simp only [pySubscript]
              rw [hs]
        | str s => cases h
        | arr xs => cases h
    | null => cases h
    | str s => cases h
    | arr xs => cases h

theorem extractStatus_of_neither (ps : List (String × J))
    (h : statusTagNeither ps = true) :
    extractStatus (J.obj ps) = Except.ok (J.str "미정") := by
  unfold statusTagNeither at h
  unfold extractStatus
  simp only [pyGet]
  cases hs : List.lookup "상태" ps with
  | none => rfl
  | some v =>
    rw [hs] at h
    cases v with
    | obj fs =>
      simp only [] at h
      simp only [Option.getD_some, pyGet]
      cases ht : List.lookup "type" fs with
      | none => rfl
      | some ty =>
        rw [ht] at h
        simp only [Bool.and_eq_true, Bool.not_eq_true'] at h
        simp only [Option.getD_some, h.1, h.2]
        rfl
    | null => cases h
    | str s => cases h
    | arr xs => cases h

theorem extractStatus_isOk (ps : List (String × J))
    (h : propOk statusOk (List.lookup "상태" ps) = true) :
    ∃ v, extractStatus (J.obj ps) = Except.ok v := by
  unfold extractStatus
  simp only [pyGet]
  cases hs : List.lookup "상태" ps with
  | none => exact ⟨_, rfl⟩
  | some v =>
    rw [hs] at h
    replace h : statusOk v = true := h
    cases v with
    | obj fs =>
      simp only [statusOk, Bool.and_eq_true] at h
      obtain ⟨h1, h2⟩ := h
      unfold statusPayloadOk at h1 h2
      simp only [Option.getD_some, pyGet]
      by_cases hty :
          pyEqStr ((List.lookup "type" fs).getD J.null) "status" = true
      · rw [if_pos hty]
        cases hp : List.lookup "status" fs with
        | none => exact ⟨_, rfl⟩
        | some sv =>
          rw [hp] at h1
          cases sv with
          | obj gs => exact ⟨_, rfl⟩
          | null => cases h1
          | str s => cases h1
          | arr xs => cases h1
      · rw [if_neg hty]
        by_cases hty2 :
            pyEqStr ((List.lookup "type" fs).getD J.null) "select" = true
        · rw [if_pos hty2]
          cases hp : List.lookup "select" fs with
          | none => exact ⟨_, rfl⟩
          | some sv =>
            rw [hp] at h2
            cases sv with
            | obj gs => exact ⟨_, rfl⟩
            | null => cases h2
            | str s => cases h2
            | arr xs => cases h2
        · rw [if_neg hty2]
          exact ⟨_, rfl⟩
    | null => cases h
    | str s => cases h
    | arr xs => cases h

theorem extractParent_of_empty (ps : List (String × J))
    (h : relationEmpty ps = true) :
    extractParent (J.obj ps) = Except.ok J.null := by
  unfold relationEmpty at h
  unfold extractParent
  simp only [pyGet]
  cases hp : List.lookup "상위 항목" ps with
  | none => rfl
  | some v =>
    rw [hp] at h
    cases v with
    | obj fs =>
      simp only [] at h
      simp only [Option.getD_some, pyGet]
      cases hr : List.lookup "relation" fs with
      | none => rfl
      | some r =>
        rw [hr] at h
        cases r with
        | null => rfl
        | arr xs =>
          cases xs with
          | nil => rfl
          | cons x rest => cases h
        | str s => cases h
        | obj gs => cases h
    | null => cases h
    | str s => cases h
    | arr xs => cases h

theorem extractParent_isOk (ps : List (String × J))
    (h : propOk parentOk (List.lookup "상위 항목" ps) = true) :
    ∃ v, extractParent (J.obj ps) = Except.ok v := by
  unfold extractParent
  simp only [pyGet]
  cases hp : List.lookup "상위 항목" ps with
  | none => exact ⟨_, rfl⟩
  | some v =>
    rw [hp] at h
    replace h : parentOk v = true := h
    cases v with
    | obj fs =>
      simp only [parentOk] at h
      simp only [Option.getD_some, pyGet]
      cases hr : List.lookup "relation" fs with
      | none => exact ⟨_, rfl⟩
      | some r =>
        rw [hr] at h
        cases r with
        | null => exact ⟨_, rfl⟩
        | arr xs =>
          cases xs with
          | nil => exact ⟨_, rfl⟩
          | cons x rest =>
            cases x with
            | obj gs =>
              obtain ⟨w, hw⟩ := Option.isSome_iff_exists.mp h
              refine ⟨w, ?_⟩
              show pySubscript (J.obj gs) "id" = Except.ok w
              simp only [pySubscript]
              rw [hw]
            | null => cases h
            | str s => cases h
            | arr ys => cases h
        | str s => cases h
        | obj gs => cases h
    | null => cases h
    | str s => cases h
    | arr xs => cases h

/-- On well-shaped records (absent keys, empty lists and so on tolerated)
the normalizer raises no exception. -/
theorem processRecord_wellShaped_isOk (item : J)
    (h : wellShaped item = true) :
    ∃ out, processRecord item = Except.ok out := by
  cases item with
  | null => exact Bool.noConfusion h
  | str s => exact Bool.noConfusion h
  | arr xs => exact Bool.noConfusion h
  | obj fs =>
    simp only [wellShaped, Bool.and_eq_true] at h
    obtain ⟨hid, hprops⟩ := h
    obtain ⟨idv, hidv⟩ := Option.isSome_iff_exists.mp hid
    unfold processRecord
    simp only [pyGet]
    have hsub : pySubscript (J.obj fs) "id" = Except.ok idv := by
      simp only [pySubscript]
      rw [hidv]
    cases hp : List.lookup "properties" fs with
    | none =>
      simp only [Option.getD_none]
      obtain ⟨nm, hnm⟩ := extractName_isOk [] rfl
      simp only [hnm]
      by_cases hx : pyEqStr nm "이름 없음" = true
      · rw [if_pos hx]
        exact ⟨none, rfl⟩
      · rw [if_neg hx]
        obtain ⟨d, hd⟩ := extractDate_isOk [] rfl
        obtain ⟨st, hst⟩ := extractStatus_isOk [] rfl
        obtain ⟨pa, hpa⟩ := extractParent_isOk [] rfl
        simp only [hd, hst, hpa, hsub]
        exact ⟨_, rfl⟩
    | some pv =>
      rw [hp] at hprops
      cases pv with
      | obj ps =>
        simp only [Bool.and_eq_true] at hprops
        obtain ⟨⟨⟨h1, h2⟩, h3⟩, h4⟩ := hprops
        simp only [Option.getD_some]
        obtain ⟨nm, hnm⟩ := extractName_isOk ps h1
        simp only [hnm]
        by_cases hx : pyEqStr nm "이름 없음" = true
        · rw [if_pos hx]
          exact ⟨none, rfl⟩
        · rw [if_neg hx]
          obtain ⟨d, hd⟩ := extractDate_isOk ps h2
          obtain ⟨st, hst⟩ := extractStatus_isOk ps h3
          obtain ⟨pa, hpa⟩ := extractParent_isOk ps h4
          simp only [hd, hst, hpa, hsub]
          exact ⟨_, rfl⟩
      | null => exact Bool.noConfusion hprops
      | str s => exact Bool.noConfusion hprops
      | arr xs => exact Bool.noConfusion hprops

/-- A record with an absent property bag or an absent/empty title is
excluded entirely. -/
theorem processRecord_excluded (fs : List (String × J))
    (h : titleMissing fs = true) :
    processRecord (J.obj fs) = Except.ok none := by
  unfold titleMissing at h
  unfold processRecord
  simp only [pyGet]
  cases hp : List.lookup "properties" fs with
  | none => rfl
  | some pv =>
    rw [hp] at h
    cases pv with
    | obj ps =>
      simp only [Option.getD_some]
      simp only [extractName_of_titleEmpty ps h]
      rfl
    | null => exact Bool.noConfusion h
    | str s => exact Bool.noConfusion h
    | arr xs => exact Bool.noConfusion h

/-- The fields `create_timeline_chart` gives the emitted figure, whenever
it completes: a `True` autorange x axis with no explicit range, and the
manual y layout. -/
theorem create_chart_fields (fuel : Nat) (df : List Task) (fig : Figure)
    (h : create_timeline_chart fuel df = some fig) :
    fig.xaxis_autorange = true ∧ fig.xaxis_range = none ∧
      fig.yaxis_tickvals = y_tickvals (topLevelTasks df) ∧
      fig.yaxis_ticktext = y_ticktext (topLevelTasks df) ∧
      fig.yaxis_range = y_range (y_tickvals (topLevelTasks df)) := by
  unfold create_timeline_chart at h
  split at h
  · cases h
  · split at h
    · cases h
    · rw [Option.some.injEq] at h
      subst h
      exact ⟨rfl, rfl, rfl, rfl, rfl⟩

/-- Python `int` truncation is the identity on integer-valued rationals. -/
theorem pyInt_intCast (z : Int) : pyInt ((z : Int) : ℚ) = z := by
  unfold pyInt
  split
  · exact Int.floor_intCast z
  · exact Int.ceil_intCast z

/-- Closed form of `dynamic_height` when the y range has the shape the
layout produces for `n ≥ 1` distinct-name roots. -/
theorem dynamic_height_formula (fig : Figure) (tops : List Task)
    (hne : tops ≠ [])
    (hr : fig.yaxis_range =
      ((tops.length : Int) * y_axis_spacing_factor, -y_axis_spacing_factor)) :
    dynamic_height fig tops =
      some (max 250 (1000 * (tops.length : Int) + 1000)) := by
  have hlen : tops.length ≠ 0 := by simpa [List.length_eq_zero] using hne
  have hq : ((tops.length : Nat) : ℚ) ≠ 0 := Nat.cast_ne_zero.mpr hlen
  unfold dynamic_height
  rw [if_neg hlen]
  have harg :
      ((tops.length : ℚ) * 50 *
          ((fig.yaxis_range.1 - fig.yaxis_range.2 : Int) : ℚ) /
            (tops.length : ℚ)) =
        ((1000 * (tops.length : Int) + 1000 : Int) : ℚ) := by
    rw [hr]
    show ((tops.length : ℚ) * 50 *
        (((tops.length : Int) * y_axis_spacing_factor -
          -y_axis_spacing_factor : Int) : ℚ) / (tops.length : ℚ)) = _
    unfold y_axis_spacing_factor
    push_cast
    field_simp
    ring
  rw [harg, pyInt_intCast]

/-! # Claims -/

/-- C1 (amended): the collector terminates with a finite list on every
index whose parent→children map admits a rank function (acyclicity); the
code has no visited-id guard, so on cyclic parent data it diverges (see
the counterexample). -/
theorem C1_collect_terminates_acyclic (df : List Task)
    (pcm : List (String × List String)) (r : String → Nat) (n : Nat)
    (root : String) (hA : AcyclicRank pcm r) (hn : r root < n) :
    ∃ l : List Detail, get_descendant_end_details n root df pcm = some l :=
  Option.isSome_iff_exists.mp (collect_isSome_of_rank df pcm r hA n root hn)

/-- C1 witness: a concrete acyclic two-task index on which the collector
returns. -/
theorem C1_collect_terminates_acyclic_witness :
    AcyclicRank
        (buildParentChildMap
          [⟨"r", "R", none, none, none⟩,
           ⟨"c", "C", some 5, some "done", some "r"⟩])
        (fun s => if s = "r" then 1 else 0) ∧
      (if "r" = "r" then 1 else 0) < 2 ∧
      ∃ l : List Detail,
        get_descendant_end_details 2 "r"
          [⟨"r", "R", none, none, none⟩,
           ⟨"c", "C", some 5, some "done", some "r"⟩]
          (buildParentChildMap
            [⟨"r", "R", none, none, none⟩,
             ⟨"c", "C", some 5, some "done", some "r"⟩]) = some l := by
  have hpcm :
      buildParentChildMap
        [(⟨"r", "R", none, none, none⟩ : Task),
         ⟨"c", "C", some 5, some "done", some "r"⟩] = [("r", ["c"])] := by
    decide
  have hA :
      AcyclicRank
        (buildParentChildMap
          [⟨"r", "R", none, none, none⟩,
           ⟨"c", "C", some 5, some "done", some "r"⟩])
        (fun s => if s = "r" then 1 else 0) := by
    rw [hpcm]
    intro p cs h c hc
    rcases hpr : p == "r" with _ | _
    · simp [List.lookup, hpr] at h
    · simp only [List.lookup, hpr] at h
      cases h
      simp only [List.mem_singleton] at hc
      cases eq_of_beq hpr
      subst hc
      decide
  exact ⟨hA, by decide,
    C1_collect_terminates_acyclic _ _ _ 2 "r" hA (by decide)⟩

/-- C1 counterexample: on the spec's own mutual-reference example (task A
with parent B, task B with parent A) the collector, which tracks no
visited ids, never returns: no recursion depth suffices. The claim's
termination guarantee for cyclic indexes is false of the code. -/
theorem C1_counterexample :
    ¬ ∃ (n : Nat) (l : List Detail),
        get_descendant_end_details n "a"
          [⟨"a", "A", none, none, some "b"⟩, ⟨"b", "B", none, none, some "a"⟩]
          (buildParentChildMap
            [⟨"a", "A", none, none, some "b"⟩,
             ⟨"b", "B", none, none, some "a"⟩]) = some l := by
  rintro ⟨n, l, h⟩
  rw [(collect_two_cycle _ "a" "b" _ (by decide) (by decide) n).1] at h
  cases h

/-- C2 (confirmed): a successful run of the collector over an acyclic index
returns exactly the depth-first pre-order of the children map, one
`(date, name, status)` tuple per visited id that has an indexed row with a
defined due date; it never contains a tuple for the root itself, and is
empty for a childless root. The per-root trace then emits the tuples
sorted ascending by date: the emitted x sequence is a permutation of the
collected dates and is sorted. -/
theorem C2_collector_preorder (df : List Task)
    (pcm : List (String × List String)) (r : String → Nat) (n : Nat)
    (root : String) (l : List Detail) (ypos : Int)
    (cmap : List (String × String)) (hA : AcyclicRank pcm r)
    (hl : get_descendant_end_details n root df pcm = some l) :
    (∃ ids, preorderDescendants n root pcm = some ids ∧
        l = toDetails df ids ∧ root ∉ ids) ∧
      (List.lookup root pcm = none → l = []) ∧
      ((emitTrace ypos l cmap).x).Perm (l.map (·.date)) ∧
      List.Pairwise (fun a b : Int => a ≤ b) ((emitTrace ypos l cmap).x) := by
  have heq := collect_eq_preorder df pcm n root
  rw [hl] at heq
  obtain ⟨ids, hids, hmap⟩ := Option.map_eq_some'.mp heq.symm
  refine ⟨⟨ids, hids, hmap.symm, ?_⟩, ?_, ?_, ?_⟩
  · intro hroot
    exact absurd (preorder_rank_lt pcm r hA n root ids hids root hroot)
      (Nat.lt_irrefl _)
  · intro hlk
    cases n with
    | zero => rw [collect_zero] at hl; cases hl
    | succ n =>
      rw [collect_succ, hlk] at hl
      cases hl
      rfl
  · show ((sortBy dateLe l).map (·.date)).Perm (l.map (·.date))
    exact (sortBy_perm dateLe l).map (·.date)
  · show List.Pairwise (fun a b : Int => a ≤ b)
      ((sortBy dateLe l).map (·.date))
    refine List.Pairwise.map (·.date) ?_
      (sortBy_pairwise dateLe dateLe_trans dateLe_total l)
    intro a b hab
    simpa [dateLe] using hab

/-- C2 witness: a concrete acyclic index with two out-of-order children;
the collector returns them in pre-order and the emitted trace sorts them. -/
theorem C2_collector_preorder_witness :
    AcyclicRank
        (buildParentChildMap
          [⟨"r", "R", none, none, none⟩,
           ⟨"c1", "C1", some 32, some "done", some "r"⟩,
           ⟨"c2", "C2", some 10, some "done", some "r"⟩])
        (fun s => if s = "r" then 1 else 0) ∧
      get_descendant_end_details 2 "r"
          [⟨"r", "R", none, none, none⟩,
           ⟨"c1", "C1", some 32, some "done", some "r"⟩,
           ⟨"c2", "C2", some 10, some "done", some "r"⟩]
          (buildParentChildMap
            [⟨"r", "R", none, none, none⟩,
             ⟨"c1", "C1", some 32, some "done", some "r"⟩,
             ⟨"c2", "C2", some 10, some "done", some "r"⟩]) =
        some [⟨32, "C1", some "done"⟩, ⟨10, "C2", some "done"⟩] ∧
      ((∃ ids,
          preorderDescendants 2 "r"
              (buildParentChildMap
                [⟨"r", "R", none, none, none⟩,
                 ⟨"c1", "C1", some 32, some "done", some "r"⟩,
                 ⟨"c2", "C2", some 10, some "done", some "r"⟩]) = some ids ∧
            [⟨32, "C1", some "done"⟩, ⟨10, "C2", some "done"⟩] =
              toDetails
                [⟨"r", "R", none, none, none⟩,
                 ⟨"c1", "C1", some 32, some "done", some "r"⟩,
                 ⟨"c2", "C2", some 10, some "done", some "r"⟩] ids ∧
            "r" ∉ ids) ∧
        (List.lookup "r"
            (buildParentChildMap
              [⟨"r", "R", none, none, none⟩,
               ⟨"c1", "C1", some 32, some "done", some "r"⟩,
               ⟨"c2", "C2", some 10, some "done", some "r"⟩]) = none →
          [⟨32, "C1", some "done"⟩, ⟨10, "C2", some "done"⟩] = ([] : List Detail)) ∧
        ((emitTrace 0
            [⟨32, "C1", some "done"⟩, ⟨10, "C2", some "done"⟩] []).x).Perm
          ([⟨32, "C1", some "done"⟩, ⟨10, "C2", some "done"⟩].map
            (fun d : Detail => d.date)) ∧
        List.Pairwise (fun a b : Int => a ≤ b)
          ((emitTrace 0
            [⟨32, "C1", some "done"⟩, ⟨10, "C2", some "done"⟩] []).x)) := by
  have hA :
      AcyclicRank
        (buildParentChildMap
          [⟨"r", "R", none, none, none⟩,
           ⟨"c1", "C1", some 32, some "done", some "r"⟩,
           ⟨"c2", "C2", some 10, some "done", some "r"⟩])
        (fun s => if s = "r" then 1 else 0) := by
    have hpcm :
        buildParentChildMap
          [(⟨"r", "R", none, none, none⟩ : Task),
           ⟨"c1", "C1", some 32, some "done", some "r"⟩,
           ⟨"c2", "C2", some 10, some "done", some "r"⟩] =
          [("r", ["c1", "c2"])] := by decide
    rw [hpcm]
    intro p cs h c hc
    rcases hpr : p == "r" with _ | _
    · simp [List.lookup, hpr] at h
    · simp only [List.lookup, hpr] at h
      cases h
      cases eq_of_beq hpr
      simp only [List.mem_cons, List.not_mem_nil, or_false] at hc
      rcases hc with rfl | rfl <;> decide
  exact ⟨hA, by decide,
    C2_collector_preorder _ _ _ 2 "r" _ 0 [] hA (by decide)⟩

/-- C3 (amended): the top-level tasks are ordered ascending by name; with
pairwise-distinct root names the i-th root is assigned position
`i * spacing`, the tick list pairs positions with names, and the display
range brackets the positions with one full spacing unit (not half a unit)
of padding on each end, in reversed direction (first component of the
range exceeds the second). -/
theorem C3_vertical_layout (df : List Task)
    (hne : topLevelTasks df ≠ [])
    (hnd : ((topLevelTasks df).map (·.name)).Nodup) :
    List.Pairwise (fun a b => nameLe a b = true) (topLevelTasks df) ∧
      (topLevelTasks df).Perm (top_level_select df) ∧
      y_axis_map (topLevelTasks df) =
        (topLevelTasks df).enum.map
          (fun p => (p.2.name, (p.1 : Int) * y_axis_spacing_factor)) ∧
      y_ticktext (topLevelTasks df) = (topLevelTasks df).map (·.name) ∧
      y_tickvals (topLevelTasks df) =
        (List.range (topLevelTasks df).length).map
          (fun i : Nat => (i : Int) * y_axis_spacing_factor) ∧
      y_range (y_tickvals (topLevelTasks df)) =
        (((topLevelTasks df).length : Int) * y_axis_spacing_factor,
          -y_axis_spacing_factor) ∧
      (∀ v ∈ y_tickvals (topLevelTasks df),
        (y_range (y_tickvals (topLevelTasks df))).2 < v ∧
          v < (y_range (y_tickvals (topLevelTasks df))).1) ∧
      (y_range (y_tickvals (topLevelTasks df))).2 <
        (y_range (y_tickvals (topLevelTasks df))).1 := by
  have hlen : (topLevelTasks df).length ≠ 0 := by
    simpa [List.length_eq_zero] using hne
  have htv := y_tickvals_eq (topLevelTasks df) hnd
  have hyr := y_range_eq (topLevelTasks df).length hlen
  refine ⟨sortBy_pairwise nameLe nameLe_trans nameLe_total _,
    sortBy_perm nameLe _, y_axis_map_eq _ hnd, y_ticktext_eq _ hnd, htv,
    ?_, ?_, ?_⟩
  · rw [htv, hyr]
  · intro v hv
    rw [htv] at hv
    obtain ⟨i, hi, rfl⟩ := List.mem_map.mp hv
    rw [htv, hyr]
    have hi' : (i : Int) < ((topLevelTasks df).length : Int) := by
      exact_mod_cast List.mem_range.mp hi
    refine ⟨?_, ?_⟩
    · show -(20 : Int) < (i : Int) * 20
      omega
    · show (i : Int) * 20 < ((topLevelTasks df).length : Int) * 20
      omega
  · rw [htv, hyr]
    have h1 : (1 : Int) ≤ ((topLevelTasks df).length : Int) := by
      exact_mod_cast Nat.one_le_iff_ne_zero.mpr hlen
    show -(20 : Int) < ((topLevelTasks df).length : Int) * 20
    omega

/-- C3 witness: two distinct-name roots get positions 0 and 20, ticks
pairing names, and the padded, reversed range (40, −20). -/
theorem C3_vertical_layout_witness :
    topLevelTasks
        [⟨"r2", "B", none, none, none⟩, ⟨"r1", "A", none, none, none⟩] ≠ [] ∧
      ((topLevelTasks
        [⟨"r2", "B", none, none, none⟩,
         ⟨"r1", "A", none, none, none⟩]).map (·.name)).Nodup ∧
      y_tickvals
        (topLevelTasks
          [⟨"r2", "B", none, none, none⟩,
           ⟨"r1", "A", none, none, none⟩]) = [0, 20] ∧
      y_range
        (y_tickvals
          (topLevelTasks
            [⟨"r2", "B", none, none, none⟩,
             ⟨"r1", "A", none, none, none⟩])) = (40, -20) ∧
      List.Pairwise (fun a b => nameLe a b = true)
        (topLevelTasks
          [⟨"r2", "B", none, none, none⟩,
           ⟨"r1", "A", none, none, none⟩]) := by
  refine ⟨by decide, by decide, by decide, by decide, ?_⟩
  exact (C3_vertical_layout
    [⟨"r2", "B", none, none, none⟩, ⟨"r1", "A", none, none, none⟩]
    (by decide) (by decide)).1

/-- C3 counterexample: the code pads the y range with one full spacing
unit, not half a unit (a single root yields range (20, −20), while
half-a-unit padding would yield (10, −10)); moreover two identically named
roots collapse into a single dict entry, so the i-th root does not in
general receive position i · spacing. -/
theorem C3_counterexample :
    (y_range (y_tickvals (topLevelTasks [⟨"r", "A", none, none, none⟩])) =
        (20, -20) ∧
      y_range (y_tickvals (topLevelTasks [⟨"r", "A", none, none, none⟩])) ≠
        y_range_half_padded
          (y_tickvals (topLevelTasks [⟨"r", "A", none, none, none⟩]))) ∧
      (y_tickvals
          (topLevelTasks
            [⟨"r1", "A", none, none, none⟩,
             ⟨"r2", "A", none, none, none⟩]) = [20] ∧
        (y_tickvals
          (topLevelTasks
            [⟨"r1", "A", none, none, none⟩,
             ⟨"r2", "A", none, none, none⟩])).length ≠ 2) := by
  refine ⟨⟨by decide, by decide⟩, by decide, by decide⟩

/-- C4 (amended): for at least one root (with pairwise-distinct root
names) the suggested height is the pure function
`max(250, 1000·(n+1))` of the root count `n` — linear, but not the spec's
`max(250, n·50)` — while at zero roots the expression divides by the root
count and raises (`none`); the y range itself does degenerate to the
sentinel `(1, 0)` there. -/
theorem C4_dynamic_height (fuel : Nat) (df : List Task) (fig : Figure) :
    (create_timeline_chart fuel df = some fig →
        topLevelTasks df ≠ [] →
        ((topLevelTasks df).map (·.name)).Nodup →
        dynamic_height fig (topLevelTasks df) =
          some (max 250 (1000 * ((topLevelTasks df).length : Int) + 1000))) ∧
      (topLevelTasks df = [] →
        dynamic_height fig (topLevelTasks df) = none ∧
          y_range (y_tickvals (topLevelTasks df)) = (1, 0)) := by
  constructor
  · intro hc hne hnd
    have hf := create_chart_fields fuel df fig hc
    refine dynamic_height_formula fig _ hne ?_
    rw [hf.2.2.2.2, y_tickvals_eq _ hnd,
      y_range_eq _ (by simpa [List.length_eq_zero] using hne)]
  · intro h0
    rw [h0]
    exact ⟨rfl, rfl⟩

/-- C4 witness: one root yields height `max(250, 2000) = 2000`; a
DataFrame whose only task has a parent gives zero roots, `none` height and
the `(1, 0)` sentinel range. -/
theorem C4_dynamic_height_witness :
    (create_timeline_chart 2
          [⟨"r", "A", none, none, none⟩,
           ⟨"c", "C", some 5, some "done", some "r"⟩] =
        some
          ⟨true, none, [0], ["A"], (20, -20),
            [⟨[5], [0], ["#636EFA"], ["C"]⟩]⟩ ∧
      topLevelTasks
          [⟨"r", "A", none, none, none⟩,
           ⟨"c", "C", some 5, some "done", some "r"⟩] ≠ [] ∧
      ((topLevelTasks
          [⟨"r", "A", none, none, none⟩,
           ⟨"c", "C", some 5, some "done", some "r"⟩]).map (·.name)).Nodup ∧
      dynamic_height
          (⟨true, none, [0], ["A"], (20, -20),
            [⟨[5], [0], ["#636EFA"], ["C"]⟩]⟩ : Figure)
          (topLevelTasks
            [⟨"r", "A", none, none, none⟩,
             ⟨"c", "C", some 5, some "done", some "r"⟩]) =
        some (max 250 (1000 *
          ((topLevelTasks
            [⟨"r", "A", none, none, none⟩,
             ⟨"c", "C", some 5, some "done", some "r"⟩]).length : Int) +
          1000))) ∧
      (topLevelTasks [⟨"x", "X", none, none, some "ghost"⟩] = [] ∧
        (dynamic_height
            (⟨true, none, [0], ["A"], (20, -20),
              [⟨[5], [0], ["#636EFA"], ["C"]⟩]⟩ : Figure)
            (topLevelTasks [⟨"x", "X", none, none, some "ghost"⟩]) = none ∧
          y_range
            (y_tickvals
              (topLevelTasks [⟨"x", "X", none, none, some "ghost"⟩])) =
            (1, 0))) :=
  ⟨⟨by decide, by decide, by decide,
      (C4_dynamic_height 2
        [⟨"r", "A", none, none, none⟩,
         ⟨"c", "C", some 5, some "done", some "r"⟩]
        ⟨true, none, [0], ["A"], (20, -20),
          [⟨[5], [0], ["#636EFA"], ["C"]⟩]⟩).1
      (by decide) (by decide) (by decide)⟩,
    ⟨by decide,
      (C4_dynamic_height 1 [⟨"x", "X", none, none, some "ghost"⟩]
        ⟨true, none, [0], ["A"], (20, -20),
          [⟨[5], [0], ["#636EFA"], ["C"]⟩]⟩).2 (by decide)⟩⟩

/-- C4 counterexample: with one root the code's height is 2000, not the
claimed `max(250, 1·50) = 250`; and with zero roots (every task has a
parent) the height expression divides by zero (`none`) instead of being
defined. -/
theorem C4_counterexample :
    ((create_timeline_chart 2
          [⟨"r", "A", none, none, none⟩,
           ⟨"c", "C", some 5, some "done", some "r"⟩]).bind
        (fun fig =>
          dynamic_height fig
            (topLevelTasks
              [⟨"r", "A", none, none, none⟩,
               ⟨"c", "C", some 5, some "done", some "r"⟩])) = some 2000 ∧
      (2000 : Int) ≠ heightSpec 1) ∧
      ((create_timeline_chart 1 [⟨"x", "X", none, none, some "ghost"⟩]).bind
          (fun fig =>
            dynamic_height fig
              (topLevelTasks [⟨"x", "X", none, none, some "ghost"⟩])) =
          none ∧
        (none : Option Int) ≠ some (heightSpec 0)) := by
  refine ⟨⟨?_, by decide⟩, by decide, by decide⟩
  have hc : create_timeline_chart 2
      [⟨"r", "A", none, none, none⟩,
       ⟨"c", "C", some 5, some "done", some "r"⟩] =
      some
        ⟨true, none, [0], ["A"], (20, -20),
          [⟨[5], [0], ["#636EFA"], ["C"]⟩]⟩ := by decide
  rw [hc]
  show dynamic_height
      (⟨true, none, [0], ["A"], (20, -20),
        [⟨[5], [0], ["#636EFA"], ["C"]⟩]⟩ : Figure)
      (topLevelTasks
        [⟨"r", "A", none, none, none⟩,
         ⟨"c", "C", some 5, some "done", some "r"⟩]) = some 2000
  rw [dynamic_height_formula _ _ (by decide) (by decide)]
  decide

/-- C5 (amended): when the union of collected descendant dates is empty,
the code computes the default symmetric window `now ± 30` as
`min_date`/`max_date`, but never applies it: the emitted chart's x axis is
`autorange` with no explicit range. -/
theorem C5_empty_union_window (fuel : Nat) (df : List Task) (fig : Figure)
    (now : Int) (dates : List Int)
    (hd : all_descendant_end_dates fuel df = some dates)
    (hempty : dates = [])
    (hc : create_timeline_chart fuel df = some fig) :
    min_date now dates = now - 30 ∧ max_date now dates = now + 30 ∧
      fig.xaxis_autorange = true ∧ fig.xaxis_range = none ∧
      fig.xaxis_range ≠ some (min_date now dates, max_date now dates) := by
  subst hempty
  have hf := create_chart_fields fuel df fig hc
  refine ⟨rfl, rfl, hf.1, hf.2.1, ?_⟩
  rw [hf.2.1]
  simp

/-- C5 witness: one dateless root; the computed window around `now = 0` is
`(−30, 30)` and the emitted x axis carries no range. -/
theorem C5_empty_union_window_witness :
    all_descendant_end_dates 1 [⟨"r", "A", none, none, none⟩] = some [] ∧
      create_timeline_chart 1 [⟨"r", "A", none, none, none⟩] =
        some (⟨true, none, [0], ["A"], (20, -20), []⟩ : Figure) ∧
      (min_date 0 [] = 0 - 30 ∧ max_date 0 [] = 0 + 30 ∧
        (⟨true, none, [0], ["A"], (20, -20), []⟩ : Figure).xaxis_autorange =
          true ∧
        (⟨true, none, [0], ["A"], (20, -20), []⟩ : Figure).xaxis_range =
          none ∧
        (⟨true, none, [0], ["A"], (20, -20), []⟩ : Figure).xaxis_range ≠
          some (min_date 0 [], max_date 0 [])) :=
  ⟨by decide, by decide,
    C5_empty_union_window 1 [⟨"r", "A", none, none, none⟩] _ 0 []
      (by decide) rfl (by decide)⟩

/-- C5 counterexample: for a dataset with no collected dates the emitted
chart's x-axis range is absent (autorange), not the claimed explicit
`now ± 30` window. -/
theorem C5_counterexample :
    (create_timeline_chart 1 [⟨"r", "A", none, none, none⟩]).map
        (fun f => f.xaxis_range) = some none ∧
      (none : Option (Int × Int)) ≠ some (min_date 0 [], max_date 0 []) := by
  exact ⟨by decide, by decide⟩

/-- C6 (amended): on well-shaped property bags (absent keys, empty lists
and null dates tolerated) the normalizer raises nothing; an absent
property bag or absent/empty title excludes the record entirely; an
absent-or-null due date yields the null value, and a non-string or
unparsable date cell coerces to NaT rather than a default date; a status
whose type tag matches neither the fixed-status nor the free-select shape
defaults to `"미정"`; an absent, null or empty relation list yields a null
parent. (A null or mismatched-typed property payload does raise, and a
matching status type tag with a missing payload yields null rather than
the sentinel — see the counterexample.) -/
theorem C6_normalizer_defaults :
    (∀ item : J, wellShaped item = true →
        ∃ out, processRecord item = Except.ok out) ∧
      (∀ fs : List (String × J), titleMissing fs = true →
        processRecord (J.obj fs) = Except.ok none) ∧
      (∀ ps : List (String × J), dateMissing ps = true →
        extractDate (J.obj ps) = Except.ok J.null) ∧
      (∀ parse : String → Option Int, coerceDate parse J.null = none) ∧
      (∀ (parse : String → Option Int) (s : String), parse s = none →
        coerceDate parse (J.str s) = none) ∧
      (∀ ps : List (String × J), statusTagNeither ps = true →
        extractStatus (J.obj ps) = Except.ok (J.str "미정")) ∧
      (∀ ps : List (String × J), relationEmpty ps = true →
        extractParent (J.obj ps) = Except.ok J.null) :=
  ⟨processRecord_wellShaped_isOk, processRecord_excluded,
    extractDate_of_missing, fun _ => rfl, fun _ _ h => h,
    extractStatus_of_neither, extractParent_of_empty⟩

/-- C6 witness: concrete instances of each clause. -/
theorem C6_normalizer_defaults_witness :
    wellShaped (J.obj [("id", J.str "p1")]) = true ∧
      (∃ out, processRecord (J.obj [("id", J.str "p1")]) = Except.ok out) ∧
      titleMissing [("id", J.str "p1")] = true ∧
      processRecord (J.obj [("id", J.str "p1")]) = Except.ok none ∧
      dateMissing [] = true ∧
      extractDate (J.obj []) = Except.ok J.null ∧
      coerceDate (fun _ => none) J.null = none ∧
      coerceDate (fun _ => none) (J.str "not a date") = none ∧
      statusTagNeither [] = true ∧
      extractStatus (J.obj []) = Except.ok (J.str "미정") ∧
      relationEmpty [] = true ∧
      extractParent (J.obj []) = Except.ok J.null :=
  ⟨rfl, C6_normalizer_defaults.1 _ rfl, rfl,
    C6_normalizer_defaults.2.1 _ rfl, rfl,
    C6_normalizer_defaults.2.2.1 _ rfl,
    C6_normalizer_defaults.2.2.2.1 _,
    C6_normalizer_defaults.2.2.2.2.1 _ _ rfl, rfl,
    C6_normalizer_defaults.2.2.2.2.2.1 _ rfl, rfl,
    C6_normalizer_defaults.2.2.2.2.2.2 _ rfl⟩

/-- C6 counterexample: a record whose `프로젝트 이름` property is null makes
the normalizer raise `AttributeError` (so "never throws" is false), and a
record whose status carries the matching type tag `"status"` but no
payload is normalized with a null status, not the `"미정"` sentinel. -/
theorem C6_counterexample :
    processRecord (J.obj [("properties", J.obj [("프로젝트 이름", J.null)])]) =
        Except.error "AttributeError" ∧
      (∃ r, processRecord (J.obj
          [("id", J.str "p1"),
           ("properties", J.obj
             [("프로젝트 이름", J.obj [("title",
                 J.arr [J.obj [("plain_text", J.str "Alpha")]])]),
              ("상태", J.obj [("type", J.str "status")])])]) =
          Except.ok (some r) ∧
        r.status = J.null ∧ r.status ≠ J.str "미정") :=
  ⟨rfl, ⟨_, rfl, rfl, fun h => J.noConfusion h⟩⟩

/-- C7 (confirmed): the color table enumerates the distinct descendant
names of the full dataset in sorted order and assigns the rank-`i` name
the palette entry at `i mod palette length`; the name list is the same for
every run over the same dataset (any sufficient recursion depth), so a
given name always receives the identical color, with reuse once the
distinct names exceed the palette size (rank `palette length` shares the
rank-0 color). -/
theorem C7_color_assignment (fuel : Nat) (df : List Task) (ns : List String)
    (h : all_descendant_names fuel df = some ns) :
    ns.Nodup ∧
      List.Pairwise (fun a b => strLe a b = true) ns ∧
      (∀ i (hi : i < ns.length),
        List.lookup (ns.get ⟨i, hi⟩) (color_map_of ns) =
          some (plotly_qualitative_colors.getD
            (i % plotly_qualitative_colors.length) "")) ∧
      (∀ fuel2 ns2, all_descendant_names fuel2 df = some ns2 → ns2 = ns) ∧
      (∀ hlen : plotly_qualitative_colors.length < ns.length,
        List.lookup
            (ns.get ⟨plotly_qualitative_colors.length, hlen⟩)
            (color_map_of ns) =
          List.lookup
            (ns.get ⟨0, Nat.lt_of_le_of_lt (Nat.zero_le _) hlen⟩)
            (color_map_of ns)) := by
  obtain ⟨hnd, hsorted⟩ := all_names_spec fuel df ns h
  refine ⟨hnd, hsorted, fun i hi => color_map_rank ns hnd i hi, ?_, ?_⟩
  · intro fuel2 ns2 h2
    rcases Nat.le_total fuel fuel2 with hle | hle
    · rw [all_names_mono df fuel fuel2 hle ns h] at h2
      exact (Option.some.injEq _ _).mp h2.symm
    · rw [all_names_mono df fuel2 fuel hle ns2 h2] at h
      exact (Option.some.injEq _ _).mp h
  · intro hlen
    rw [color_map_rank ns hnd _ hlen,
      color_map_rank ns hnd 0 (Nat.lt_of_le_of_lt (Nat.zero_le _) hlen),
      Nat.mod_self, Nat.zero_mod]

/-- C7 witness: two descendants named C1 and C2 get palette ranks 0
and 1. -/
theorem C7_color_assignment_witness :
    all_descendant_names 2
        [⟨"r", "A", none, none, none⟩,
         ⟨"c1", "C1", some 5, some "done", some "r"⟩,
         ⟨"c2", "C2", some 6, some "done", some "r"⟩] =
      some ["C1", "C2"] ∧
      ((["C1", "C2"] : List String).Nodup ∧
        List.Pairwise (fun a b => strLe a b = true) ["C1", "C2"] ∧
        (∀ i (hi : i < (["C1", "C2"] : List String).length),
          List.lookup ((["C1", "C2"] : List String).get ⟨i, hi⟩)
              (color_map_of ["C1", "C2"]) =
            some (plotly_qualitative_colors.getD
              (i % plotly_qualitative_colors.length) "")) ∧
        (∀ fuel2 ns2,
          all_descendant_names fuel2
              [⟨"r", "A", none, none, none⟩,
               ⟨"c1", "C1", some 5, some "done", some "r"⟩,
               ⟨"c2", "C2", some 6, some "done", some "r"⟩] = some ns2 →
            ns2 = ["C1", "C2"]) ∧
        (∀ hlen : plotly_qualitative_colors.length <
            (["C1", "C2"] : List String).length,
          List.lookup
              ((["C1", "C2"] : List String).get
                ⟨plotly_qualitative_colors.length, hlen⟩)
              (color_map_of ["C1", "C2"]) =
            List.lookup
              ((["C1", "C2"] : List String).get
                ⟨0, Nat.lt_of_le_of_lt (Nat.zero_le _) hlen⟩)
              (color_map_of ["C1", "C2"]))) :=
  ⟨by decide,
    C7_color_assignment 2
      [⟨"r", "A", none, none, none⟩,
       ⟨"c1", "C1", some 5, some "done", some "r"⟩,
       ⟨"c2", "C2", some 6, some "done", some "r"⟩]
      ["C1", "C2"] (by decide)⟩

/-- C8 (confirmed): a task occupies the top-level (y-axis) selection iff it
is a row of the DataFrame whose parent reference is null — independent of
any other task's references. -/
theorem C8_top_level_iff (df : List Task) (t : Task) :
    t ∈ topLevelTasks df ↔ t ∈ df ∧ t.parent_id = none := by
  unfold topLevelTasks top_level_select
  rw [(sortBy_perm nameLe _).mem_iff]
  simp [List.mem_filter, Option.isNone_iff_eq_none]

/-- Unfolding the fetch loop: a successful page. -/
theorem fetch_cons_ok {α : Type} (p : Page α)
    (rest : List (Except String (Page α))) (acc : List α) :
    get_notion_database_data (Except.ok p :: rest) acc =
      (if p.has_more then get_notion_database_data rest (acc ++ p.results)
       else some (acc ++ p.results)) := rfl

/-- Unfolding the fetch loop: a raised page request. -/
theorem fetch_cons_err {α : Type} (e : String)
    (rest : List (Except String (Page α))) (acc : List α) :
    get_notion_database_data (Except.error e :: rest) acc = some [] := rfl

theorem fetch_error_discards {α : Type} :
    ∀ (pre : List (Except String (Page α))) (e : String)
      (rest : List (Except String (Page α))) (acc : List α),
      (∀ r ∈ pre, ∃ p, r = Except.ok p ∧ p.has_more = true) →
      get_notion_database_data (pre ++ Except.error e :: rest) acc = some []
  | [], _, _, _, _ => rfl
  | r :: pre, e, rest, acc, h => by
    obtain ⟨p, hp, hmore⟩ := h r (List.mem_cons_self _ _)
    subst hp
    rw [List.cons_append, fetch_cons_ok, if_pos hmore]
    exact fetch_error_discards pre e rest _
      (fun r' hr' => h r' (List.mem_cons_of_mem _ hr'))

/-- C9 (confirmed): if, after any number of successful has-more pages, a
page request raises, the fetch returns the empty record list, discarding
everything accumulated so far. -/
theorem C9_fetch_error_empty {α : Type}
    (pre : List (Except String (Page α))) (e : String)
    (rest : List (Except String (Page α))) (acc : List α)
    (h : ∀ r ∈ pre, ∃ p, r = Except.ok p ∧ p.has_more = true) :
    get_notion_database_data (pre ++ Except.error e :: rest) acc = some [] :=
  fetch_error_discards pre e rest acc h

/-- C9 witness: one successful page followed by a raised request yields the
empty list. -/
theorem C9_fetch_error_empty_witness :
    (∀ r ∈ ([Except.ok ⟨[1, 2], true, none⟩] : List (Except String (Page Nat))),
        ∃ p, r = Except.ok p ∧ p.has_more = true) ∧
      get_notion_database_data
        (([Except.ok ⟨[1, 2], true, none⟩] : List (Except String (Page Nat))) ++
          Except.error "boom" :: []) [] = some [] := by
  have h : ∀ r ∈ ([Except.ok ⟨[1, 2], true, none⟩] :
      List (Except String (Page Nat))),
      ∃ p, r = Except.ok p ∧ p.has_more = true := by
    intro r hr
    simp only [List.mem_singleton] at hr
    exact ⟨_, hr, rfl⟩
  exact ⟨h, C9_fetch_error_empty _ "boom" [] [] h⟩

/-- C10 (confirmed): every child id stored in the parent→children map is
the id of some DataFrame row, so the collector's indexed lookup succeeds
and the `KeyError` fallback arm is unreachable. -/
theorem C10_children_resolve (df : List Task) (p c : String)
    (cs : List String)
    (h1 : List.lookup p (buildParentChildMap df) = some cs) (h2 : c ∈ cs) :
    c ∈ df.map (·.id) ∧ (df.find? (fun t => t.id == c)).isSome = true := by
  have hm := buildPCM_children_sub df p cs (lookup_mem h1)
  refine ⟨hm c h2, ?_⟩
  rw [List.find?_isSome]
  obtain ⟨t, ht, hid⟩ := List.mem_map.mp (hm c h2)
  exact ⟨t, ht, by simp [hid]⟩

/-- C10 witness: a concrete map lookup whose child id resolves. -/
theorem C10_children_resolve_witness :
    List.lookup "r"
        (buildParentChildMap
          [⟨"r", "R", none, none, none⟩,
           ⟨"c", "C", some 5, some "done", some "r"⟩]) = some ["c"] ∧
      "c" ∈ ["c"] ∧
      ("c" ∈ ([⟨"r", "R", none, none, none⟩,
            ⟨"c", "C", some 5, some "done", some "r"⟩] : List Task).map (·.id) ∧
        (([⟨"r", "R", none, none, none⟩,
            ⟨"c", "C", some 5, some "done", some "r"⟩] : List Task).find?
            (fun t => t.id == "c")).isSome = true) :=
  ⟨by decide, by decide,
    C10_children_resolve _ "r" "c" ["c"] (by decide) (by decide)⟩

end Gantt
